import Mathlib

/-!
# bluetoe: attribute addressing and notification priorities

A shallow embedding of `bluetoe/attribute.hpp`, `bluetoe/outgoing_priority.hpp` and
`bluetoe/find_notification_data.hpp`.

Conventions of the embedding.

* A `std::tuple< Ts... >` of types is a `List`; a type with static members is a structure value;
  `std::is_same` is equality of values.
* A template instantiation that is ill-formed (a failing `static_assert`, a member that does not
  exist, a template without a matching specialisation, a constant that does not fit the
  `std::uint16_t` template parameter it is passed to) is `none`.
* A call that ends in a failing `assert` returns nothing: it is `none` as well.
* `std::uint16_t` values are natural numbers reduced `% 65536`; the run-time `std::size_t` counters
  of the two visitor objects are reduced `% 2 ^ w`, where `w` is the width of `std::size_t`.
  Compile-time counts of attributes and of tuple elements are natural numbers: they count
  entities that exist in the program image and stay far below `2 ^ w`.
* `int` priorities are integers; they are bounded by the lengths of the declared lists.
-/

namespace bluetoe

/-! ## meta tools used by the three headers (`bluetoe/options.hpp`) -/

/-- Modelled from the spec: `select_type< C, A, B >` of `bluetoe/options.hpp` is not among
the sources; it names `A` when the condition holds and `B` otherwise. -/
def select_type {α : Type} (c : Bool) (A B : α) : α :=
  if c then A else B

/-- Modelled from the spec: `add_type< std::tuple< Ts... >, T >` of `bluetoe/options.hpp` is not
among the sources; it appends one element to a tuple. -/
def add_type {α : Type} (Ts : List α) (T : α) : List α :=
  Ts ++ [T]

/-- Modelled from the spec: `add_type< std::tuple< Ts... >, std::tuple< Us... > >` of
`bluetoe/options.hpp` is not among the sources; it concatenates two tuples. -/
def add_type_tuple {α : Type} (Ts Us : List α) : List α :=
  Ts ++ Us

/-- Modelled from the spec: `last_type< std::tuple< Ts... >, Default >` of `bluetoe/options.hpp`
is not among the sources; it names the last element of a tuple, `Default` for the empty tuple. -/
def last_type {α : Type} : List α → α → α
  | [], Default => Default
  | T :: Ts, _ => last_type Ts T

/-- Modelled from the spec: `fold_left< List, Operation, Start >` of `bluetoe/options.hpp` is not
among the sources; the ordinary left fold `Operation< ... Operation< Start, T1 > ..., Tn >`, ill-formed
as soon as one application of `Operation` is. -/
def fold_left {α σ : Type} (Ts : List α) (Operation : σ → α → Option σ) (Start : σ) : Option σ :=
  match Ts with
  | [] => some Start
  | T :: Ts =>
    match Operation Start T with
    | none => none
    | some s => fold_left Ts Operation s

/-- Modelled from the spec: `find_if< List, Predicate >` of `bluetoe/options.hpp` is not among
the sources; the first element that satisfies the predicate, `none` standing for `no_such_type`. -/
def find_if {α : Type} (Ts : List α) (p : α → Bool) : Option α :=
  match Ts with
  | [] => none
  | T :: Ts => if p T then some T else find_if Ts p

/-- Modelled from the spec: `index_of< T, Ts... >` of `bluetoe/options.hpp` is not among the sources;
the zero-based index of the first occurrence of `T` in the list, the length of the list when `T`
is absent. -/
def index_of {α : Type} [DecidableEq α] (T : α) : List α → Int
  | [] => 0
  | U :: Us => if T = U then 0 else index_of T Us + 1

/-- Modelled from the spec: `stable_sort< Order, List >` of `bluetoe/options.hpp` is not among
the sources; this is the step of a stable sort that puts one element in front of the first element of
an ordered list that does not come strictly before it. -/
def stable_sort.insert_ordered {α : Type} (Order : α → α → Bool) (T : α) : List α → List α
  | [] => [T]
  | U :: Us => if Order U T then U :: stable_sort.insert_ordered Order T Us else T :: U :: Us

/-- Modelled from the spec: `stable_sort< Order, List >` of `bluetoe/options.hpp` is not among
the sources; sorts by the strict order `Order`, entries that `Order` does not separate keep their
relative order. -/
def stable_sort {α : Type} (Order : α → α → Bool) : List α → List α
  | [] => []
  | T :: Ts => stable_sort.insert_ordered Order T (stable_sort Order Ts)

/-- Modelled from the spec: `for_< std::tuple< Ts... > >::each( f )` of `bluetoe/options.hpp` is
not among the sources; it calls `f.each< T >()` for every element in declared order, on one and the
same function object. -/
def for_.each {α σ : Type} (each : σ → α → σ) : List α → σ → σ
  | [], f => f
  | T :: Ts, f => for_.each each Ts (each f T)

/-! ## `bluetoe/attribute.hpp` -/

/-- The structure `attribute` (a reserved word in Lean, hence the name): a 16 bit uuid and the
identity of its access function. -/
structure gatt_attribute where
  uuid : Nat
  access : Nat
deriving DecidableEq

/-- An element of the tuple handed to `attribute_at_list` and `sum_up_attributes`: a type with
a static `number_of_attributes` and a static `attribute_at( index )`. -/
structure attribute_provider where
  number_of_attributes : Nat
  attribute_at : Nat → Option gatt_attribute

/-- `attribute_at_list< std::tuple< Ts... > >::attribute_at( index )`; `none` is the failing
`assert( !"index out of bound" )` of the empty tuple. -/
def attribute_at_list.attribute_at : List attribute_provider → Nat → Option gatt_attribute
  | [], _ => none
  | T :: Ts, index =>
    if index < T.number_of_attributes
    then T.attribute_at index
    else attribute_at_list.attribute_at Ts (index - T.number_of_attributes)

/-- `sum_up_attributes< std::tuple< Ts... > >::value`. -/
def sum_up_attributes : List attribute_provider → Nat
  | [] => 0
  | T :: Ts => T.number_of_attributes + sum_up_attributes Ts

/-! ## declarations the headers read from services and characteristics -/

/-- The `meta_type` of a UUID type. -/
inductive uuid_meta_type where
  | service_uuid_meta_type
  | characteristic_uuid_meta_type
  | no_uuid_meta_type
deriving DecidableEq

/-- A UUID type: its meta type and its value. -/
structure uuid where
  meta_type : uuid_meta_type
  value : Nat
deriving DecidableEq

/-- The two priority options of `bluetoe/outgoing_priority.hpp`, with their parameter lists. -/
inductive outgoing_priority where
  | higher_outgoing_priority (UUIDs : List uuid)
  | lower_outgoing_priority (UUIDs : List uuid)
deriving DecidableEq

/-- The static members of a characteristic type that the three headers read. -/
structure characteristic where
  configured_uuid : uuid
  number_of_attributes : Nat
  number_of_client_configs : Nat
  is_this : Nat → Bool
  attribute_at : Nat → gatt_attribute

/-- The static members of a service type that the three headers read. -/
structure service where
  uuid : uuid
  number_of_service_attributes : Nat
  number_of_client_configs : Nat
  characteristics : List characteristic
  notification_priority : outgoing_priority

/-! ## `bluetoe/outgoing_priority.hpp` -/

/-- Modelled from the spec: `count_by_meta_type< Meta, Us... >::count` of `bluetoe/options.hpp`
is not among the sources; the number of parameters whose meta type is `Meta`. -/
def count_by_meta_type (Meta : uuid_meta_type) (Us : List uuid) : Nat :=
  (Us.filter (fun U => decide (U.meta_type = Meta))).length

/-- `check_server_parameter< Us... >::check`, `none` when the `static_assert` fails. -/
def check_server_parameter (Us : List uuid) : Option Bool :=
  if count_by_meta_type uuid_meta_type.service_uuid_meta_type Us = Us.length
  then some true else none

/-- `check_service_parameter< Us... >::check`, `none` when the `static_assert` fails. -/
def check_service_parameter (Us : List uuid) : Option Bool :=
  if count_by_meta_type uuid_meta_type.characteristic_uuid_meta_type Us = Us.length
  then some true else none

/-- The member `size` of a priority option; `lower_outgoing_priority` has no such member. -/
def outgoing_priority.size : outgoing_priority → Option Nat
  | outgoing_priority.higher_outgoing_priority UUIDs => some UUIDs.length
  | outgoing_priority.lower_outgoing_priority _ => none

/-- `number_of_additional_priorities< Services, ServiceUUID >::type::value`. -/
def number_of_additional_priorities (Services : List service) (ServiceUUID : uuid) :
    Option Int :=
  match find_if Services (fun Service => decide (Service.uuid = ServiceUUID)) with
  | none => none
  | some service =>
    match service.notification_priority.size with
    | none => none
    | some size =>
      let size_with_default : Nat :=
        if size = service.number_of_client_configs then size else size + 1
      some (if size_with_default = 0 then 1 else (size_with_default : Int))

namespace higher_outgoing_priority

/-- `service_base_priority< Services, Service >::optional_sum_prio< Sum, ServiceUUID >::type`,
the pair of `found` and `sum`. -/
def service_base_priority.optional_sum_prio (Services : List service) (Service : service)
    (Sum : Bool × Int) (ServiceUUID : uuid) : Option (Bool × Int) :=
  let found : Bool := Sum.1 || decide (ServiceUUID = Service.uuid)
  let prio : Int := Sum.2
  match number_of_additional_priorities Services ServiceUUID with
  | none => none
  | some additional => some (found, select_type found prio additional)

/-- `higher_outgoing_priority< UUIDs... >::service_base_priority< Services, Service >::value`. -/
def service_base_priority (UUIDs : List uuid) (Services : List service) (Service : service) :
    Option Int :=
  match fold_left UUIDs (service_base_priority.optional_sum_prio Services Service)
      (false, 0) with
  | none => none
  | some type => some type.2

/-- `higher_outgoing_priority< UUIDs... >::characteristic_position< Characteristic >::value`. -/
def characteristic_position (UUIDs : List uuid) (Characteristic : characteristic) :
    Option Int :=
  match check_service_parameter UUIDs with
  | none => none
  | some _ => some (index_of Characteristic.configured_uuid UUIDs)

end higher_outgoing_priority

/-- The member `characteristic_position` of the priority option of a service;
`lower_outgoing_priority` has no such member. -/
def outgoing_priority.characteristic_position :
    outgoing_priority → characteristic → Option Int
  | outgoing_priority.higher_outgoing_priority UUIDs, Characteristic =>
    higher_outgoing_priority.characteristic_position UUIDs Characteristic
  | outgoing_priority.lower_outgoing_priority _, _ => none

namespace higher_outgoing_priority

/-- `higher_outgoing_priority< UUIDs... >::characteristic_priority< Services, Service,
Characteristic >::value`. -/
def characteristic_priority (UUIDs : List uuid) (Services : List service) (Service : service)
    (Characteristic : characteristic) : Option Int :=
  match check_server_parameter UUIDs with
  | none => none
  | some _ =>
    match service_base_priority UUIDs Services Service,
      Service.notification_priority.characteristic_position Characteristic with
    | some service_prio, some char_prio => some (service_prio + char_prio)
    | _, _ => none

end higher_outgoing_priority

/-- The member `characteristic_priority` of the priority option of a server;
`lower_outgoing_priority` has no such member. -/
def outgoing_priority.characteristic_priority :
    outgoing_priority → List service → service → characteristic → Option Int
  | outgoing_priority.higher_outgoing_priority UUIDs, Services, Service, Characteristic =>
    higher_outgoing_priority.characteristic_priority UUIDs Services Service Characteristic
  | outgoing_priority.lower_outgoing_priority _, _, _, _ => none

/-! ## `bluetoe/find_notification_data.hpp` -/

/-- Modelled from the spec: `notification_data` is declared outside the sources; the spec's
`NotificationEntry` names its two run-time components, a 16 bit attribute handle and an index. -/
structure notification_data where
  attribute_handle : Nat
  index : Nat
deriving DecidableEq

/-- Modelled from the spec: the default constructor of `notification_data` is declared outside
the sources; the sentinel with the reserved attribute handle 0. -/
def notification_data.sentinel : notification_data :=
  { attribute_handle := 0, index := 0 }

/-- Modelled from the spec: the constructor `notification_data( handle, index )` is declared
outside the sources; the handle is converted to the 16 bit attribute handle, and the handle 0 is
reserved and never assigned: with it the constructor ends in the fatal precondition error and
there is no value, `none`. -/
def notification_data.construct (handle index : Nat) : Option notification_data :=
  if handle % 65536 = 0 then none
  else some { attribute_handle := handle % 65536, index := index }

namespace find_notification_data_in_list

/-- `characteristic_with_service_attribute_offset< Characteristic, Offset, Prio >`. -/
structure characteristic_with_service_attribute_offset where
  characteristic_t : characteristic
  service_offset : Nat
  priority : Int

/-- `characteristic_handle_pair< Characteristic, FirstAttributesHandle, Prio >`. -/
structure characteristic_handle_pair where
  characteristic_t : characteristic
  first_attribute_handle : Nat
  priority : Int

/-- `preudo_first_char`: only `number_of_attributes` is declared, and only it is read. -/
def preudo_first_char : characteristic :=
  { configured_uuid := { meta_type := uuid_meta_type.no_uuid_meta_type, value := 0 },
    number_of_attributes := 0,
    number_of_client_configs := 0,
    is_this := fun _ => false,
    attribute_at := fun _ => { uuid := 0, access := 0 } }

/-- `filter_characteristics_with_cccd< Characteristics, Pair >::type`. -/
def filter_characteristics_with_cccd (Characteristics : List characteristic_handle_pair)
    (Pair : characteristic_handle_pair) : List characteristic_handle_pair :=
  select_type (decide (Pair.characteristic_t.number_of_client_configs ≠ 0))
    (add_type Characteristics Pair)
    Characteristics

/-- The pack expansion `characteristic_with_service_attribute_offset< Cs, 0,
Priorities::characteristic_priority< Services, Service, Cs >::value >...`. -/
def characteristics_from_service.add_service_offset_rest (Priorities : outgoing_priority)
    (Services : List service) (Service : service) :
    List characteristic → Option (List characteristic_with_service_attribute_offset)
  | [] => some []
  | Cs :: rest =>
    match Priorities.characteristic_priority Services Service Cs,
      characteristics_from_service.add_service_offset_rest Priorities Services Service rest with
    | some Prio, some tail =>
      some ({ characteristic_t := Cs, service_offset := 0, priority := Prio } :: tail)
    | _, _ => none

/-- `characteristics_from_service< Characteristics, Service >::add_service_offset< C >::type`;
it is declared for a tuple with a first element only, and `number_of_service_attributes` has to
fit the `std::uint16_t` template parameter `Offset`. -/
def characteristics_from_service.add_service_offset (Priorities : outgoing_priority)
    (Services : List service) (Service : service) :
    List characteristic → Option (List characteristic_with_service_attribute_offset)
  | [] => none
  | C :: Cs =>
    if Service.number_of_service_attributes < 65536 then
      match Priorities.characteristic_priority Services Service C,
        characteristics_from_service.add_service_offset_rest Priorities Services Service Cs with
      | some Prio, some tail =>
        some ({ characteristic_t := C, service_offset := Service.number_of_service_attributes,
                priority := Prio } :: tail)
      | _, _ => none
    else none

/-- `characteristics_from_service< Characteristics, Service >::type`. -/
def characteristics_from_service (Priorities : outgoing_priority) (Services : List service)
    (Characteristics : List characteristic_with_service_attribute_offset) (Service : service) :
    Option (List characteristic_with_service_attribute_offset) :=
  match characteristics_from_service.add_service_offset Priorities Services Service
      Service.characteristics with
  | none => none
  | some type => some (add_type_tuple Characteristics type)

/-- `add_handle_to_characteristic< Characteristics, Characteristic >::type`; `attribute_handle`
has to fit the `std::uint16_t` template parameter `FirstAttributesHandle`. -/
def add_handle_to_characteristic (Characteristics : List characteristic_handle_pair)
    (Characteristic : characteristic_with_service_attribute_offset) :
    Option (List characteristic_handle_pair) :=
  let last : characteristic_handle_pair :=
    last_type Characteristics
      { characteristic_t := preudo_first_char, first_attribute_handle := 1, priority := 0 }
  let attribute_handle : Nat :=
    last.first_attribute_handle + last.characteristic_t.number_of_attributes
      + Characteristic.service_offset
  if attribute_handle < 65536 then
    some (add_type Characteristics
      { characteristic_t := Characteristic.characteristic_t,
        first_attribute_handle := attribute_handle,
        priority := Characteristic.priority })
  else none

/-- `order_by_prio< A, B >::type::value`. -/
def order_by_prio (A B : characteristic_handle_pair) : Bool :=
  decide (A.priority < B.priority)

/-- `all_characteristics`. -/
def all_characteristics (Priorities : outgoing_priority) (Services : List service) :
    Option (List characteristic_with_service_attribute_offset) :=
  fold_left Services (characteristics_from_service Priorities Services) []

/-- `characteristics_with_attribute_handles`. -/
def characteristics_with_attribute_handles (Priorities : outgoing_priority)
    (Services : List service) : Option (List characteristic_handle_pair) :=
  match all_characteristics Priorities Services with
  | none => none
  | some all => fold_left all add_handle_to_characteristic []

/-- `characteristics_only_with_cccd`. -/
def characteristics_only_with_cccd (Priorities : outgoing_priority) (Services : List service) :
    Option (List characteristic_handle_pair) :=
  match characteristics_with_attribute_handles Priorities Services with
  | none => none
  | some with_handles =>
    fold_left with_handles
      (fun Characteristics Pair => some (filter_characteristics_with_cccd Characteristics Pair)) []

/-- `characteristics_sorted_by_priority`. -/
def characteristics_sorted_by_priority (Priorities : outgoing_priority)
    (Services : List service) : Option (List characteristic_handle_pair) :=
  match characteristics_only_with_cccd Priorities Services with
  | none => none
  | some only_with_cccd => some (stable_sort order_by_prio only_with_cccd)

/-- The function object `attribute_at`: the referenced `std::uint16_t` result and the
`std::size_t` index. -/
structure attribute_at where
  result : Nat
  index : Nat

/-- `attribute_at::each< O >()`, for a `std::size_t` of `w` bits. -/
def attribute_at.each (w : Nat) (f : attribute_at) (O : characteristic_handle_pair) :
    attribute_at :=
  { result := if f.index = 0 then (O.first_attribute_handle + 1) % 65536 else f.result,
    index := (f.index + 2 ^ w - 1) % 2 ^ w }

/-- `find_notification_data_by_index( index )`, for a `std::size_t` of `w` bits; `none` when the
instantiation of `find_notification_data_in_list< Priorities, Services >` is ill-formed, and
when the constructor of the returned value ends in its precondition error. -/
def find_notification_data_by_index (w : Nat) (Priorities : outgoing_priority)
    (Services : List service) (index : Nat) : Option notification_data :=
  match characteristics_sorted_by_priority Priorities Services with
  | none => none
  | some sorted =>
    let visited := for_.each (attribute_at.each w) sorted { result := 0, index := index }
    notification_data.construct visited.result index

/-- The function object `attribute_value`: the referenced result, the `std::size_t` index and
the value looked for. -/
structure attribute_value where
  result : notification_data
  index : Nat
  value : Nat

/-- `attribute_value::each< O >()`, for a `std::size_t` of `w` bits; `none` when the
constructor of the assigned value ends in its precondition error. -/
def attribute_value.each (w : Nat) (f : attribute_value) (O : characteristic_handle_pair) :
    Option attribute_value :=
  if O.characteristic_t.is_this f.value then
    match notification_data.construct (O.first_attribute_handle + 1) f.index with
    | none => none
    | some data =>
      some { result := data, index := (f.index + 1) % 2 ^ w, value := f.value }
  else
    some { result := f.result, index := (f.index + 1) % 2 ^ w, value := f.value }

/-- One call `f.each< O >()` of `for_`, on the function object as the calls before left it;
there is no further call once a call has ended in an error. -/
def attribute_value.visit (w : Nat) (visitor : Option attribute_value)
    (O : characteristic_handle_pair) : Option attribute_value :=
  match visitor with
  | none => none
  | some f => attribute_value.each w f O

/-- `find_notification_data( value )`, for a `std::size_t` of `w` bits; `none` when the
instantiation of `find_notification_data_in_list< Priorities, Services >` is ill-formed, and
when a call of `each` ends in an error. -/
def find_notification_data (w : Nat) (Priorities : outgoing_priority)
    (Services : List service) (value : Nat) : Option notification_data :=
  match characteristics_only_with_cccd Priorities Services with
  | none => none
  | some only_with_cccd =>
    let result : notification_data := notification_data.sentinel
    match for_.each (attribute_value.visit w) only_with_cccd
        (some { result := result, index := 0, value := value }) with
    | none => none
    | some visited => some visited.result

end find_notification_data_in_list

/-! ## example declarations -/

namespace example_server

/-- The service UUID number `n`. -/
def service_uuid (n : Nat) : uuid :=
  { meta_type := uuid_meta_type.service_uuid_meta_type, value := n }

/-- The characteristic UUID number `n`. -/
def characteristic_uuid (n : Nat) : uuid :=
  { meta_type := uuid_meta_type.characteristic_uuid_meta_type, value := n }

/-- The characteristic `bluetoe::characteristic< c, bluetoe::notify >` of the service number `s`:
declaration, value and client characteristic configuration; its value is bound to the address
`16 * s + c`. -/
def notifying (s c : Nat) : characteristic :=
  { configured_uuid := characteristic_uuid c,
    number_of_attributes := 3,
    number_of_client_configs := 1,
    is_this := fun value => decide (value = 16 * s + c),
    attribute_at := fun index => { uuid := 16 * s + c, access := index } }

/-- A characteristic without client characteristic configuration: declaration and value. -/
def silent (s c : Nat) : characteristic :=
  { configured_uuid := characteristic_uuid c,
    number_of_attributes := 2,
    number_of_client_configs := 0,
    is_this := fun value => decide (value = 16 * s + c),
    attribute_at := fun index => { uuid := 16 * s + c, access := index } }

/-- The service number `s` with the notifying characteristics a (1), b (2) and c (3) and the
priority option `higher_outgoing_priority< rule... >`. -/
def abc_service (s : Nat) (rule : List uuid) : service :=
  { uuid := service_uuid s,
    number_of_service_attributes := 1,
    number_of_client_configs := 3,
    characteristics := [notifying s 1, notifying s 2, notifying s 3],
    notification_priority := outgoing_priority.higher_outgoing_priority rule }

/-- Service A of the documentation of `higher_outgoing_priority`. -/
def A : service := abc_service 1 [characteristic_uuid 2]

/-- Service B of the documentation of `higher_outgoing_priority`, its `lower_outgoing_priority`
option taken as no option. -/
def B : service := abc_service 2 []

/-- Service C of the documentation of `higher_outgoing_priority`. -/
def C : service := abc_service 3 [characteristic_uuid 1, characteristic_uuid 2]

/-- The services of the documented server. -/
def documented_services : List service := [A, B, C]

/-- The server option `higher_outgoing_priority< A >` of the documented server. -/
def documented_priorities : outgoing_priority :=
  outgoing_priority.higher_outgoing_priority [service_uuid 1]

/-- Three attribute providers with 2, 0 and 3 attributes. -/
def three_providers : List attribute_provider :=
  [ { number_of_attributes := 2, attribute_at := fun index => some { uuid := 10, access := index } },
    { number_of_attributes := 0, attribute_at := fun index => some { uuid := 20, access := index } },
    { number_of_attributes := 3, attribute_at := fun index => some { uuid := 30, access := index } } ]

/-- The entries of `characteristics_with_attribute_handles` of the documented server. -/
def documented_with_handles : List find_notification_data_in_list.characteristic_handle_pair :=
  (find_notification_data_in_list.characteristics_with_attribute_handles
    documented_priorities documented_services).getD []

/-- The entries of `characteristics_only_with_cccd` of the documented server. -/
def documented_only_with_cccd : List find_notification_data_in_list.characteristic_handle_pair :=
  (find_notification_data_in_list.characteristics_only_with_cccd
    documented_priorities documented_services).getD []

/-- The entries of `characteristics_sorted_by_priority` of the documented server. -/
def documented_sorted : List find_notification_data_in_list.characteristic_handle_pair :=
  (find_notification_data_in_list.characteristics_sorted_by_priority
    documented_priorities documented_services).getD []

/-- The own attributes of the example services. -/
def own_attribute (Service : service) (index : Nat) : gatt_attribute :=
  { uuid := 1000 + Service.uuid.value, access := index }

/-- The server option without parameters, `higher_outgoing_priority<>`. -/
def no_priorities : outgoing_priority :=
  outgoing_priority.higher_outgoing_priority []

/-- A service with a characteristic without and a characteristic with a client characteristic
configuration. -/
def mixed_service : service :=
  { uuid := service_uuid 4,
    number_of_service_attributes := 1,
    number_of_client_configs := 1,
    characteristics := [silent 4 1, notifying 4 2],
    notification_priority := outgoing_priority.higher_outgoing_priority [] }

/-- The services A and the mixed service. -/
def mixed_services : List service := [mixed_service, A]

/-- The entries of `characteristics_with_attribute_handles` of the mixed server. -/
def mixed_with_handles : List find_notification_data_in_list.characteristic_handle_pair :=
  (find_notification_data_in_list.characteristics_with_attribute_handles
    documented_priorities mixed_services).getD []

/-- The entries of `characteristics_sorted_by_priority` of the mixed server. -/
def mixed_sorted : List find_notification_data_in_list.characteristic_handle_pair :=
  (find_notification_data_in_list.characteristics_sorted_by_priority
    documented_priorities mixed_services).getD []

/-- The server option `higher_outgoing_priority< A, B, C >`. -/
def three_named : List uuid := [service_uuid 1, service_uuid 2, service_uuid 3]

/-- The server option `higher_outgoing_priority< A, B >`. -/
def two_named : List uuid := [service_uuid 1, service_uuid 2]

/-- The entries of `characteristics_only_with_cccd` of the mixed server. -/
def mixed_only_with_cccd : List find_notification_data_in_list.characteristic_handle_pair :=
  (find_notification_data_in_list.characteristics_only_with_cccd
    documented_priorities mixed_services).getD []

/-- Service B of the documentation of `higher_outgoing_priority`, with its option
`lower_outgoing_priority< a >` as the priority option of the service. -/
def B_lower : service :=
  { uuid := service_uuid 2,
    number_of_service_attributes := 1,
    number_of_client_configs := 3,
    characteristics := [notifying 2 1, notifying 2 2, notifying 2 3],
    notification_priority := outgoing_priority.lower_outgoing_priority [characteristic_uuid 1] }

/-- The services of the documented server, B with its `lower_outgoing_priority< a >`. -/
def documented_services_lower : List service := [A, B_lower, C]

/-- A server option that names a characteristic UUID. -/
def wrong_server_rule : List uuid := [service_uuid 1, characteristic_uuid 2]

/-- A service option that names a service UUID. -/
def wrong_service_rule : List uuid := [characteristic_uuid 1, service_uuid 2]

/-- The services A, B and C of the documented server without their options. -/
def plain_services : List service := [abc_service 1 [], abc_service 2 [], abc_service 3 []]

/-- The entries of `characteristics_only_with_cccd` of the server without options. -/
def plain_only_with_cccd : List find_notification_data_in_list.characteristic_handle_pair :=
  (find_notification_data_in_list.characteristics_only_with_cccd
    no_priorities plain_services).getD []

/-- A service whose first and third characteristic are bound to one and the same value, at the
address 81. -/
def shared_value_service : service :=
  { uuid := service_uuid 5,
    number_of_service_attributes := 1,
    number_of_client_configs := 3,
    characteristics :=
      [notifying 5 1, notifying 5 2,
        { configured_uuid := characteristic_uuid 3,
          number_of_attributes := 3,
          number_of_client_configs := 1,
          is_this := fun value => decide (value = 81),
          attribute_at := fun index => { uuid := 83, access := index } }],
    notification_priority := outgoing_priority.higher_outgoing_priority [] }

/-- The entries of `characteristics_only_with_cccd` of the server with the shared value. -/
def shared_value_only_with_cccd :
    List find_notification_data_in_list.characteristic_handle_pair :=
  (find_notification_data_in_list.characteristics_only_with_cccd
    no_priorities [shared_value_service]).getD []

end example_server

/-! ## notions used to state the properties -/

/-- The sum of `number_of_attributes` over a list of providers. -/
def attribute_count (Ps : List attribute_provider) : Nat :=
  (Ps.map (fun P => P.number_of_attributes)).sum

/-- The predicate "has a client characteristic configuration" on the entries. -/
def has_cccd (Pair : find_notification_data_in_list.characteristic_handle_pair) : Bool :=
  decide (Pair.characteristic_t.number_of_client_configs ≠ 0)

/-- The handles that `add_handle_to_characteristic` assigns one after the other, `next` being
`last::first_attribute_handle + last::characteristic_t::number_of_attributes`. -/
def assign_handles (next : Nat) :
    List find_notification_data_in_list.characteristic_with_service_attribute_offset →
    List find_notification_data_in_list.characteristic_handle_pair
  | [] => []
  | C :: Cs =>
    { characteristic_t := C.characteristic_t,
      first_attribute_handle := next + C.service_offset,
      priority := C.priority }
      :: assign_handles (next + C.service_offset + C.characteristic_t.number_of_attributes) Cs

/-- The value of `last::first_attribute_handle + last::characteristic_t::number_of_attributes`
for a tuple of entries. -/
def next_handle (Characteristics : List find_notification_data_in_list.characteristic_handle_pair) :
    Nat :=
  (last_type Characteristics
      { characteristic_t := find_notification_data_in_list.preudo_first_char,
        first_attribute_handle := 1, priority := 0 }).first_attribute_handle
    + (last_type Characteristics
      { characteristic_t := find_notification_data_in_list.preudo_first_char,
        first_attribute_handle := 1, priority := 0 }).characteristic_t.number_of_attributes

/-- The value of `last::first_attribute_handle + last::characteristic_t::number_of_attributes`
after `add_handle_to_characteristic` went over a list of characteristics. -/
def advance_handle (next : Nat) :
    List find_notification_data_in_list.characteristic_with_service_attribute_offset → Nat
  | [] => next
  | C :: Cs =>
    advance_handle (next + C.service_offset + C.characteristic_t.number_of_attributes) Cs

/-- A characteristic as an element of the tuple handed to `attribute_at_list`. -/
def characteristic.provider (C : characteristic) : attribute_provider :=
  { number_of_attributes := C.number_of_attributes,
    attribute_at := fun index => some (C.attribute_at index) }

/-- Modelled from the spec: `service::number_of_attributes` and `service::attribute_at` are not
among the sources; a service contributes its `number_of_service_attributes` own attributes, `own`,
followed by the attributes of its characteristics in declared order. -/
def service.provider (own : service → Nat → gatt_attribute) (Service : service) :
    attribute_provider :=
  { number_of_attributes :=
      Service.number_of_service_attributes
        + attribute_count (Service.characteristics.map characteristic.provider),
    attribute_at := fun index =>
      if index < Service.number_of_service_attributes
      then some (own Service index)
      else attribute_at_list.attribute_at (Service.characteristics.map characteristic.provider)
        (index - Service.number_of_service_attributes) }

/-! # Properties -/

open find_notification_data_in_list

/-! ## `attribute_at_list` -/

theorem attribute_count_cons (T : attribute_provider) (Ts : List attribute_provider) :
    attribute_count (T :: Ts) = T.number_of_attributes + attribute_count Ts := by
  simp [attribute_count]

/-- C2: for every index below the sum of the providers' `number_of_attributes`,
`attribute_at_list::attribute_at( i )` is `Pk::attribute_at( j )` for a provider `Pk` and a local
index `j` with `i = (sum over the providers before Pk) + j` and `j < number_of_attributes( Pk )`,
`k` and `j` are the only such pair, and the provider selected has attributes. -/
theorem attribute_at_list_selects_provider (Ps : List attribute_provider) (i : Nat)
    (hi : i < attribute_count Ps) :
    ∃ k j, ∃ hk : k < Ps.length,
      i = attribute_count (Ps.take k) + j ∧
      j < (Ps.get ⟨k, hk⟩).number_of_attributes ∧
      (Ps.get ⟨k, hk⟩).number_of_attributes ≠ 0 ∧
      attribute_at_list.attribute_at Ps i = (Ps.get ⟨k, hk⟩).attribute_at j ∧
      ∀ k2 j2, ∀ hk2 : k2 < Ps.length,
        i = attribute_count (Ps.take k2) + j2 →
        j2 < (Ps.get ⟨k2, hk2⟩).number_of_attributes → k2 = k ∧ j2 = j := by
  induction Ps generalizing i with
  | nil => simp [attribute_count] at hi
  | cons T Ts ih =>
    by_cases hlt : i < T.number_of_attributes
    · refine ⟨0, i, by simp, by simp [attribute_count], by simpa using hlt, ?_, ?_, ?_⟩
      · simp only [List.get_eq_getElem, List.getElem_cons_zero]
        omega
      · simp [attribute_at_list.attribute_at, hlt]
      · intro k2 j2 hk2 hsum hj2
        cases k2 with
        | zero =>
          refine ⟨rfl, ?_⟩
          simp [attribute_count] at hsum
          exact hsum.symm
        | succ k3 =>
          exfalso
          rw [List.take_succ_cons, attribute_count_cons] at hsum
          omega
    · rw [attribute_count_cons] at hi
      obtain ⟨k, j, hk, hsum, hj, hne, hat, huniq⟩ := ih (i - T.number_of_attributes) (by omega)
      refine ⟨k + 1, j, by simpa using hk, ?_, by simpa using hj, by simpa using hne, ?_, ?_⟩
      · rw [List.take_succ_cons, attribute_count_cons]
        omega
      · simp only [attribute_at_list.attribute_at, hlt, if_false]
        simpa using hat
      · intro k2 j2 hk2 hsum2 hj2
        cases k2 with
        | zero =>
          exfalso
          simp [attribute_count] at hsum2
          simp at hj2
          omega
        | succ k3 =>
          rw [List.take_succ_cons, attribute_count_cons] at hsum2
          have hk3 : k3 < Ts.length := by simpa using hk2
          have h := huniq k3 j2 hk3 (by omega) (by simpa using hj2)
          exact ⟨by omega, h.2⟩

/-- Witness of C2: index 3 of the providers with 2, 0 and 3 attributes. -/
theorem attribute_at_list_selects_provider_witness :
    ∃ k j, ∃ hk : k < example_server.three_providers.length,
      3 = attribute_count (example_server.three_providers.take k) + j ∧
      j < (example_server.three_providers.get ⟨k, hk⟩).number_of_attributes ∧
      (example_server.three_providers.get ⟨k, hk⟩).number_of_attributes ≠ 0 ∧
      attribute_at_list.attribute_at example_server.three_providers 3
        = (example_server.three_providers.get ⟨k, hk⟩).attribute_at j ∧
      ∀ k2 j2, ∀ hk2 : k2 < example_server.three_providers.length,
        3 = attribute_count (example_server.three_providers.take k2) + j2 →
        j2 < (example_server.three_providers.get ⟨k2, hk2⟩).number_of_attributes →
        k2 = k ∧ j2 = j :=
  attribute_at_list_selects_provider example_server.three_providers 3 (by decide)

/-! ## `stable_sort` -/

theorem insert_ordered_perm {α : Type} (Order : α → α → Bool) (T : α) (Ts : List α) :
    (stable_sort.insert_ordered Order T Ts).Perm (T :: Ts) := by
  induction Ts with
  | nil => simp [stable_sort.insert_ordered]
  | cons U Us ih =>
    simp only [stable_sort.insert_ordered]
    split
    · exact (List.Perm.cons U ih).trans (List.Perm.swap T U Us)
    · exact List.Perm.refl _

theorem stable_sort_perm {α : Type} (Order : α → α → Bool) (Ts : List α) :
    (stable_sort Order Ts).Perm Ts := by
  induction Ts with
  | nil => simp [stable_sort]
  | cons T Ts ih =>
    simp only [stable_sort]
    exact (insert_ordered_perm Order T _).trans (List.Perm.cons T ih)

theorem insert_ordered_filter {α : Type} (Order : α → α → Bool) (p : α → Bool) (T : α)
    (Ts : List α) (hsep : ∀ U, Order U T = true → p T = true → p U = false) :
    (stable_sort.insert_ordered Order T Ts).filter p = (T :: Ts).filter p := by
  induction Ts with
  | nil => simp [stable_sort.insert_ordered]
  | cons U Us ih =>
    simp only [stable_sort.insert_ordered]
    split
    · rename_i hUT
      by_cases hT : p T = true
      · have hU : p U = false := hsep U hUT hT
        rw [List.filter_cons_of_neg (by simp [hU]), ih]
        rw [List.filter_cons_of_pos hT, List.filter_cons_of_pos hT,
          List.filter_cons_of_neg (by simp [hU])]
      · rw [List.filter_cons_of_neg hT]
        by_cases hU : p U = true
        · rw [List.filter_cons_of_pos hU, List.filter_cons_of_pos hU, ih,
            List.filter_cons_of_neg hT]
        · rw [List.filter_cons_of_neg hU, List.filter_cons_of_neg hU, ih,
            List.filter_cons_of_neg hT]
    · rfl

theorem stable_sort_filter {α : Type} (Order : α → α → Bool) (p : α → Bool) (Ts : List α)
    (hsep : ∀ T U, Order U T = true → p T = true → p U = false) :
    (stable_sort Order Ts).filter p = Ts.filter p := by
  induction Ts with
  | nil => simp [stable_sort]
  | cons T Ts ih =>
    simp only [stable_sort]
    rw [insert_ordered_filter Order p T _ (hsep T)]
    by_cases hT : p T = true
    · rw [List.filter_cons_of_pos hT, List.filter_cons_of_pos hT, ih]
    · rw [List.filter_cons_of_neg hT, List.filter_cons_of_neg hT, ih]

theorem insert_ordered_by_prio_sorted (T : characteristic_handle_pair)
    (Ts : List characteristic_handle_pair)
    (hTs : Ts.Pairwise (fun A B => A.priority ≤ B.priority)) :
    (stable_sort.insert_ordered order_by_prio T Ts).Pairwise
      (fun A B => A.priority ≤ B.priority) := by
  induction Ts with
  | nil => simp [stable_sort.insert_ordered]
  | cons U Us ih =>
    simp only [stable_sort.insert_ordered]
    rw [List.pairwise_cons] at hTs
    split
    · rename_i hUT
      have hlt : U.priority < T.priority := by simpa [order_by_prio] using hUT
      rw [List.pairwise_cons]
      refine ⟨?_, ih hTs.2⟩
      intro V hV
      have hmem := (insert_ordered_perm order_by_prio T Us).subset hV
      rcases List.mem_cons.1 hmem with h | h
      · rw [h]; omega
      · exact hTs.1 V h
    · rename_i hUT
      have hle : T.priority ≤ U.priority := by
        have : ¬ U.priority < T.priority := by simpa [order_by_prio] using hUT
        omega
      rw [List.pairwise_cons]
      refine ⟨?_, List.pairwise_cons.2 hTs⟩
      intro V hV
      rcases List.mem_cons.1 hV with h | h
      · rw [h]; exact hle
      · exact le_trans hle (hTs.1 V h)

theorem stable_sort_by_prio_sorted (Ts : List characteristic_handle_pair) :
    (stable_sort order_by_prio Ts).Pairwise (fun A B => A.priority ≤ B.priority) := by
  induction Ts with
  | nil => simp [stable_sort]
  | cons T Ts ih =>
    simp only [stable_sort]
    exact insert_ordered_by_prio_sorted T _ ih

/-! ## the tuples of `find_notification_data_in_list` -/

theorem last_type_append {α : Type} (Ts : List α) (T Default : α) :
    last_type (Ts ++ [T]) Default = T := by
  induction Ts generalizing Default with
  | nil => simp [last_type]
  | cons U Us ih => simp [last_type, ih]

theorem fold_left_filter (Pairs Characteristics : List characteristic_handle_pair) :
    fold_left Pairs
      (fun Characteristics Pair => some (filter_characteristics_with_cccd Characteristics Pair))
      Characteristics
    = some (Characteristics ++ Pairs.filter has_cccd) := by
  induction Pairs generalizing Characteristics with
  | nil => simp [fold_left]
  | cons Pair Pairs ih =>
    simp only [fold_left]
    rw [ih]
    by_cases h : Pair.characteristic_t.number_of_client_configs = 0
    · simp [filter_characteristics_with_cccd, select_type, has_cccd, h]
    · simp [filter_characteristics_with_cccd, select_type, has_cccd, h, add_type]

theorem only_with_cccd_eq (Priorities : outgoing_priority) (Services : List service)
    (with_handles : List characteristic_handle_pair)
    (h : characteristics_with_attribute_handles Priorities Services = some with_handles) :
    characteristics_only_with_cccd Priorities Services = some (with_handles.filter has_cccd) := by
  simp [characteristics_only_with_cccd, h, fold_left_filter]

theorem sorted_eq (Priorities : outgoing_priority) (Services : List service)
    (only_with_cccd : List characteristic_handle_pair)
    (h : characteristics_only_with_cccd Priorities Services = some only_with_cccd) :
    characteristics_sorted_by_priority Priorities Services
      = some (stable_sort order_by_prio only_with_cccd) := by
  simp [characteristics_sorted_by_priority, h]

theorem fold_left_add_handle
    (all : List characteristic_with_service_attribute_offset)
    (Characteristics result : List characteristic_handle_pair)
    (h : fold_left all add_handle_to_characteristic Characteristics = some result) :
    result = Characteristics ++ assign_handles (next_handle Characteristics) all
      ∧ ∀ Pair ∈ assign_handles (next_handle Characteristics) all,
          Pair.first_attribute_handle < 65536 := by
  induction all generalizing Characteristics with
  | nil =>
    simp [fold_left] at h
    simp [assign_handles, h]
  | cons C Cs ih =>
    simp only [fold_left] at h
    by_cases hfit : next_handle Characteristics + C.service_offset < 65536
    · have hstep : add_handle_to_characteristic Characteristics C
          = some (Characteristics ++
              [{ characteristic_t := C.characteristic_t,
                 first_attribute_handle := next_handle Characteristics + C.service_offset,
                 priority := C.priority }]) := by
        simp only [add_handle_to_characteristic, add_type]
        rw [if_pos (by simpa [next_handle] using hfit)]
        rfl
      rw [hstep] at h
      simp only at h
      have hnext : next_handle (Characteristics ++
              [{ characteristic_t := C.characteristic_t,
                 first_attribute_handle := next_handle Characteristics + C.service_offset,
                 priority := C.priority }])
          = next_handle Characteristics + C.service_offset
              + C.characteristic_t.number_of_attributes := by
        simp only [next_handle]
        rw [last_type_append]
      obtain ⟨h1, h2⟩ := ih _ h
      rw [hnext] at h1 h2
      constructor
      · rw [h1]
        simp [assign_handles]
      · intro Pair hPair
        simp only [assign_handles, List.mem_cons] at hPair
        rcases hPair with hP | hP
        · rw [hP]; exact hfit
        · exact h2 Pair hP
    · have hstep : add_handle_to_characteristic Characteristics C = none := by
        simp only [add_handle_to_characteristic, add_type]
        rw [if_neg (by simpa [next_handle] using hfit)]
      rw [hstep] at h
      simp at h

/-- C5: `characteristics_sorted_by_priority` is ordered by priority ascending, and for every
priority the entries with that priority are the same, in the same order, as in the declaration
ordered `characteristics_only_with_cccd`. -/
theorem sorted_by_priority_ascending_and_stable (Priorities : outgoing_priority)
    (Services : List service) (only_with_cccd sorted : List characteristic_handle_pair)
    (honly : characteristics_only_with_cccd Priorities Services = some only_with_cccd)
    (hsorted : characteristics_sorted_by_priority Priorities Services = some sorted) :
    (∀ i j, ∀ hij : i < j, ∀ hj : j < sorted.length,
        (sorted.get ⟨i, by omega⟩).priority ≤ (sorted.get ⟨j, hj⟩).priority)
    ∧ (∀ prio : Int,
        sorted.filter (fun Pair => decide (Pair.priority = prio))
          = only_with_cccd.filter (fun Pair => decide (Pair.priority = prio))) := by
  rw [sorted_eq Priorities Services only_with_cccd honly] at hsorted
  have hs : sorted = stable_sort order_by_prio only_with_cccd := by
    simpa using hsorted.symm
  subst hs
  constructor
  · intro i j hij hj
    have hp := stable_sort_by_prio_sorted only_with_cccd
    rw [List.pairwise_iff_get] at hp
    exact hp ⟨i, by omega⟩ ⟨j, hj⟩ hij
  · intro prio
    apply stable_sort_filter
    intro T U hUT hT
    have hlt : U.priority < T.priority := by simpa [order_by_prio] using hUT
    have hTp : T.priority = prio := by simpa using hT
    simp
    omega

theorem add_service_offset_rest_spec (Priorities : outgoing_priority) (Services : List service)
    (Service : service) (Cs : List characteristic)
    (tail : List characteristic_with_service_attribute_offset)
    (h : characteristics_from_service.add_service_offset_rest Priorities Services Service Cs
      = some tail) :
    tail.map (fun Pair => Pair.characteristic_t) = Cs
      ∧ ∀ Pair ∈ tail, Pair.service_offset = 0 := by
  induction Cs generalizing tail with
  | nil =>
    simp [characteristics_from_service.add_service_offset_rest] at h
    simp [h]
  | cons C Cs ih =>
    simp only [characteristics_from_service.add_service_offset_rest] at h
    split at h
    · rename_i Prio rest hPrio hrest
      obtain ⟨h1, h2⟩ := ih rest hrest
      simp at h
      subst h
      constructor
      · simp [h1]
      · intro Pair hPair
        simp only [List.mem_cons] at hPair
        rcases hPair with hP | hP
        · rw [hP]
        · exact h2 Pair hP
    · simp at h

theorem add_service_offset_spec (Priorities : outgoing_priority) (Services : List service)
    (Service : service) (block : List characteristic_with_service_attribute_offset)
    (h : characteristics_from_service.add_service_offset Priorities Services Service
      Service.characteristics = some block) :
    ∃ C Cs Prio tail,
      Service.characteristics = C :: Cs
      ∧ block = { characteristic_t := C,
                  service_offset := Service.number_of_service_attributes,
                  priority := Prio } :: tail
      ∧ tail.map (fun Pair => Pair.characteristic_t) = Cs
      ∧ (∀ Pair ∈ tail, Pair.service_offset = 0)
      ∧ Service.number_of_service_attributes < 65536 := by
  cases hcs : Service.characteristics with
  | nil =>
    rw [hcs] at h
    simp [characteristics_from_service.add_service_offset] at h
  | cons C Cs =>
    rw [hcs] at h
    simp only [characteristics_from_service.add_service_offset] at h
    split at h
    · rename_i hfit
      split at h
      · rename_i Prio tail hPrio htail
        obtain ⟨h1, h2⟩ := add_service_offset_rest_spec Priorities Services Service Cs tail htail
        simp at h
        exact ⟨C, Cs, Prio, tail, rfl, h.symm, h1, h2, hfit⟩
      · simp at h
    · simp at h

theorem fold_left_characteristics_from_service (Priorities : outgoing_priority)
    (Services folded : List service)
    (Characteristics result : List characteristic_with_service_attribute_offset)
    (h : fold_left folded (characteristics_from_service Priorities Services) Characteristics
      = some result) :
    ∃ blocks : List (List characteristic_with_service_attribute_offset),
      result = Characteristics ++ blocks.flatten
      ∧ List.Forall₂
          (fun Service block =>
            characteristics_from_service.add_service_offset Priorities Services Service
              Service.characteristics = some block)
          folded blocks := by
  induction folded generalizing Characteristics with
  | nil =>
    simp [fold_left] at h
    exact ⟨[], by simp [h], List.Forall₂.nil⟩
  | cons Service rest ih =>
    simp only [fold_left] at h
    split at h
    · simp at h
    · rename_i s hs
      simp only [characteristics_from_service] at hs
      split at hs
      · simp at hs
      · rename_i block hblock
        simp [add_type_tuple] at hs
        subst hs
        obtain ⟨blocks, h1, h2⟩ := ih _ h
        exact ⟨block :: blocks, by simp [h1], List.Forall₂.cons hblock h2⟩

theorem assign_handles_map (next : Nat)
    (all : List characteristic_with_service_attribute_offset) :
    (assign_handles next all).map (fun Pair => Pair.characteristic_t)
      = all.map (fun Pair => Pair.characteristic_t) := by
  induction all generalizing next with
  | nil => simp [assign_handles]
  | cons C Cs ih => simp [assign_handles, ih]

theorem blocks_map (Priorities : outgoing_priority) (Services folded : List service)
    (blocks : List (List characteristic_with_service_attribute_offset))
    (h : List.Forall₂
          (fun Service block =>
            characteristics_from_service.add_service_offset Priorities Services Service
              Service.characteristics = some block)
          folded blocks) :
    blocks.flatten.map (fun Pair => Pair.characteristic_t)
      = (folded.map (fun Service => Service.characteristics)).flatten := by
  induction h with
  | nil => simp
  | cons hblock _ ih =>
    obtain ⟨C, Cs, Prio, tail, hcs, hb, htail, _, _⟩ :=
      add_service_offset_spec Priorities Services _ _ hblock
    simp only [List.flatten_cons, List.map_append, List.map_cons, ih]
    rw [hcs, hb]
    simp [htail]

theorem with_handles_eq (Priorities : outgoing_priority) (Services : List service)
    (with_handles : List characteristic_handle_pair)
    (h : characteristics_with_attribute_handles Priorities Services = some with_handles) :
    ∃ blocks : List (List characteristic_with_service_attribute_offset),
      with_handles = assign_handles 1 blocks.flatten
      ∧ (∀ Pair ∈ with_handles, Pair.first_attribute_handle < 65536)
      ∧ List.Forall₂
          (fun Service block =>
            characteristics_from_service.add_service_offset Priorities Services Service
              Service.characteristics = some block)
          Services blocks := by
  simp only [characteristics_with_attribute_handles] at h
  split at h
  · simp at h
  · rename_i all hall
    obtain ⟨blocks, hb1, hb2⟩ :=
      fold_left_characteristics_from_service Priorities Services Services [] all hall
    obtain ⟨h1, h2⟩ := fold_left_add_handle all [] with_handles h
    have hnext : next_handle [] = 1 := by simp [next_handle, last_type, preudo_first_char]
    rw [hnext] at h1 h2
    simp at hb1 h1
    subst hb1
    refine ⟨blocks, h1, ?_, hb2⟩
    intro Pair hPair
    rw [h1] at hPair
    exact h2 Pair hPair

/-- C6: `characteristics_with_attribute_handles` has one entry for every characteristic of every
service, in declared order, and `characteristics_sorted_by_priority` is a permutation of exactly
those entries whose characteristic has a non-zero `number_of_client_configs`; its
characteristics are a permutation of the characteristics of all services that have a non-zero
`number_of_client_configs`, and none of its entries has a zero `number_of_client_configs`. -/
theorem sorted_by_priority_is_permutation_of_cccd_entries (Priorities : outgoing_priority)
    (Services : List service) (with_handles sorted : List characteristic_handle_pair)
    (hwith : characteristics_with_attribute_handles Priorities Services = some with_handles)
    (hsorted : characteristics_sorted_by_priority Priorities Services = some sorted) :
    with_handles.map (fun Pair => Pair.characteristic_t)
        = (Services.map (fun Service => Service.characteristics)).flatten
    ∧ sorted.Perm
        (with_handles.filter
          (fun Pair => decide (Pair.characteristic_t.number_of_client_configs ≠ 0)))
    ∧ (sorted.map (fun Pair => Pair.characteristic_t)).Perm
        ((Services.map (fun Service => Service.characteristics)).flatten.filter
          (fun C => decide (C.number_of_client_configs ≠ 0)))
    ∧ (∀ Pair ∈ sorted, Pair.characteristic_t.number_of_client_configs ≠ 0) := by
  have honly := only_with_cccd_eq Priorities Services with_handles hwith
  rw [sorted_eq Priorities Services _ honly] at hsorted
  have hs : sorted = stable_sort order_by_prio (with_handles.filter has_cccd) := by
    simpa using hsorted.symm
  have hperm : sorted.Perm (with_handles.filter has_cccd) := by
    rw [hs]; exact stable_sort_perm _ _
  obtain ⟨blocks, h1, _, h3⟩ := with_handles_eq Priorities Services with_handles hwith
  have hmap : with_handles.map (fun Pair => Pair.characteristic_t)
      = (Services.map (fun Service => Service.characteristics)).flatten := by
    rw [h1, assign_handles_map]
    exact blocks_map Priorities Services Services blocks h3
  refine ⟨hmap, hperm, ?_, ?_⟩
  · rw [← hmap, List.filter_map]
    exact hperm.map _
  · intro Pair hPair
    have hmem := hperm.subset hPair
    have := (List.mem_filter.1 hmem).2
    simpa [has_cccd] using this

/-! ## the two visitors -/

theorem size_t_decrement (m index : Nat) (h0 : 0 < index) (hm : index < m) :
    (index + m - 1) % m = index - 1 := by
  have h : index + m - 1 = (index - 1) + m := by omega
  rw [h, Nat.add_mod_right, Nat.mod_eq_of_lt (by omega)]

theorem size_t_decrement_zero (m : Nat) (hm : 0 < m) : (0 + m - 1) % m = m - 1 := by
  rw [Nat.zero_add, Nat.mod_eq_of_lt (by omega)]

theorem attribute_at_each_miss (w : Nat) (Pairs : List characteristic_handle_pair)
    (result index : Nat) (hlen : Pairs.length ≤ index) (hindex : index < 2 ^ w) :
    (for_.each (attribute_at.each w) Pairs { result := result, index := index }).result
      = result := by
  induction Pairs generalizing index with
  | nil => simp [for_.each]
  | cons O Os ih =>
    simp only [List.length_cons] at hlen
    simp only [for_.each, attribute_at.each]
    rw [if_neg (by omega), size_t_decrement (2 ^ w) index (by omega) hindex]
    exact ih (index - 1) (by omega) (by omega)

theorem attribute_at_each_hit (w : Nat) (Pairs : List characteristic_handle_pair)
    (result index : Nat) (hindex : index < Pairs.length) (hlen : Pairs.length ≤ 2 ^ w) :
    (for_.each (attribute_at.each w) Pairs { result := result, index := index }).result
      = (Pairs[index].first_attribute_handle + 1) % 65536 := by
  induction Pairs generalizing index result with
  | nil => simp at hindex
  | cons O Os ih =>
    simp only [List.length_cons] at hlen hindex
    cases index with
    | zero =>
      simp only [for_.each, attribute_at.each]
      rw [if_pos trivial, size_t_decrement_zero (2 ^ w) (by omega)]
      rw [attribute_at_each_miss w Os _ (2 ^ w - 1) (by omega) (by omega)]
      simp
    | succ index =>
      simp only [for_.each, attribute_at.each]
      rw [if_neg (by omega), size_t_decrement (2 ^ w) (index + 1) (by omega) (by omega)]
      simp only [Nat.add_sub_cancel, List.getElem_cons_succ]
      exact ih result index (by omega) (by omega)

/-! ## handles and the attribute table -/

theorem assign_handles_append (next : Nat)
    (Cs Ds : List characteristic_with_service_attribute_offset) :
    assign_handles next (Cs ++ Ds)
      = assign_handles next Cs ++ assign_handles (advance_handle next Cs) Ds := by
  induction Cs generalizing next with
  | nil => simp [assign_handles, advance_handle]
  | cons C Cs ih => simp [assign_handles, advance_handle, ih]

theorem advance_handle_no_offset (next : Nat)
    (Cs : List characteristic_with_service_attribute_offset)
    (hzero : ∀ Pair ∈ Cs, Pair.service_offset = 0) :
    advance_handle next Cs
      = next + attribute_count (Cs.map (fun Pair => Pair.characteristic_t.provider)) := by
  induction Cs generalizing next with
  | nil => simp [advance_handle, attribute_count]
  | cons C Cs ih =>
    have hC : C.service_offset = 0 := hzero C (List.mem_cons_self _ _)
    simp only [advance_handle, List.map_cons, attribute_count_cons]
    rw [ih _ (fun Pair hPair => hzero Pair (List.mem_cons_of_mem _ hPair)), hC]
    simp only [characteristic.provider]
    omega

theorem assign_handles_no_offset (next : Nat)
    (Cs : List characteristic_with_service_attribute_offset)
    (hzero : ∀ Pair ∈ Cs, Pair.service_offset = 0)
    (Pair : characteristic_handle_pair) (hPair : Pair ∈ assign_handles next Cs)
    (j : Nat) (hj : j < Pair.characteristic_t.number_of_attributes) :
    next ≤ Pair.first_attribute_handle
    ∧ Pair.first_attribute_handle + Pair.characteristic_t.number_of_attributes
        ≤ next + attribute_count (Cs.map (fun C => C.characteristic_t.provider))
    ∧ attribute_at_list.attribute_at (Cs.map (fun C => C.characteristic_t.provider))
        (Pair.first_attribute_handle - next + j)
      = some (Pair.characteristic_t.attribute_at j) := by
  induction Cs generalizing next with
  | nil => simp [assign_handles] at hPair
  | cons C Cs ih =>
    have hC : C.service_offset = 0 := hzero C (List.mem_cons_self _ _)
    simp only [assign_handles, List.mem_cons] at hPair
    simp only [List.map_cons, attribute_count_cons, attribute_at_list.attribute_at]
    rcases hPair with hP | hP
    · subst hP
      simp only [hC, Nat.add_zero, Nat.sub_self, Nat.zero_add]
      refine ⟨le_refl _, ?_, ?_⟩
      · simp only [characteristic.provider]
        omega
      · rw [if_pos (by simpa [characteristic.provider] using hj)]
        simp [characteristic.provider]
    · obtain ⟨h1, h2, h3⟩ :=
        ih _ (fun Pair hPair => hzero Pair (List.mem_cons_of_mem _ hPair)) hP
      rw [hC] at h1 h2 h3
      simp only [characteristic.provider] at h1 h2 h3 ⊢
      refine ⟨by omega, by omega, ?_⟩
      rw [if_neg (by omega), ← h3]
      congr 1
      omega

theorem assign_handles_block (own : service → Nat → gatt_attribute)
    (Priorities : outgoing_priority) (Services : List service) (Service : service)
    (block : List characteristic_with_service_attribute_offset)
    (hblock : characteristics_from_service.add_service_offset Priorities Services Service
      Service.characteristics = some block)
    (next : Nat) :
    advance_handle next block = next + (service.provider own Service).number_of_attributes
    ∧ ∀ Pair ∈ assign_handles next block,
        ∀ j, j < Pair.characteristic_t.number_of_attributes →
          next ≤ Pair.first_attribute_handle
          ∧ Pair.first_attribute_handle - next + j
              < (service.provider own Service).number_of_attributes
          ∧ (service.provider own Service).attribute_at (Pair.first_attribute_handle - next + j)
              = some (Pair.characteristic_t.attribute_at j) := by
  obtain ⟨C, Cs, Prio, tail, hcs, hb, htail, hzero, _⟩ :=
    add_service_offset_spec Priorities Services Service block hblock
  have hzero2 : ∀ Pair ∈ ({ characteristic_t := C, service_offset := 0, priority := Prio }
      :: tail : List characteristic_with_service_attribute_offset), Pair.service_offset = 0 := by
    intro Pair hPair
    rcases List.mem_cons.1 hPair with h | h
    · rw [h]
    · exact hzero Pair h
  have hmap : (({ characteristic_t := C, service_offset := 0, priority := Prio }
      :: tail : List characteristic_with_service_attribute_offset).map
        (fun C => C.characteristic_t.provider))
      = Service.characteristics.map characteristic.provider := by
    rw [hcs, ← htail]
    simp
  have hassign : assign_handles next block
      = assign_handles (next + Service.number_of_service_attributes)
          ({ characteristic_t := C, service_offset := 0, priority := Prio } :: tail) := by
    rw [hb]
    simp [assign_handles]
  have hadvance : advance_handle next block
      = advance_handle (next + Service.number_of_service_attributes)
          ({ characteristic_t := C, service_offset := 0, priority := Prio } :: tail) := by
    rw [hb]
    simp [advance_handle]
  constructor
  · rw [hadvance, advance_handle_no_offset _ _ hzero2, hmap]
    simp only [service.provider]
    omega
  · intro Pair hPair j hj
    rw [hassign] at hPair
    obtain ⟨h1, h2, h3⟩ := assign_handles_no_offset _ _ hzero2 Pair hPair j hj
    rw [hmap] at h2 h3
    simp only [service.provider]
    refine ⟨by omega, by omega, ?_⟩
    rw [if_neg (by omega), ← h3]
    congr 1
    omega

theorem assign_handles_services (own : service → Nat → gatt_attribute)
    (Priorities : outgoing_priority) (Services folded : List service)
    (blocks : List (List characteristic_with_service_attribute_offset))
    (h : List.Forall₂
          (fun Service block =>
            characteristics_from_service.add_service_offset Priorities Services Service
              Service.characteristics = some block)
          folded blocks)
    (next : Nat) (Pair : characteristic_handle_pair)
    (hPair : Pair ∈ assign_handles next blocks.flatten)
    (j : Nat) (hj : j < Pair.characteristic_t.number_of_attributes) :
    next ≤ Pair.first_attribute_handle
    ∧ attribute_at_list.attribute_at (folded.map (service.provider own))
        (Pair.first_attribute_handle - next + j)
      = some (Pair.characteristic_t.attribute_at j) := by
  induction h generalizing next with
  | nil => simp [assign_handles] at hPair
  | @cons Service block rest blocks_rest hblock _ ih =>
    obtain ⟨hadv, hin⟩ := assign_handles_block own Priorities Services Service block hblock next
    simp only [List.flatten_cons] at hPair
    rw [assign_handles_append, List.mem_append] at hPair
    simp only [List.map_cons, attribute_at_list.attribute_at]
    rcases hPair with hP | hP
    · obtain ⟨h1, h2, h3⟩ := hin Pair hP j hj
      refine ⟨h1, ?_⟩
      rw [if_pos h2]
      exact h3
    · rw [hadv] at hP
      obtain ⟨h1, h2⟩ := ih _ hP
      refine ⟨by omega, ?_⟩
      rw [if_neg (by omega), ← h2]
      congr 1
      omega

theorem sorted_spec (Priorities : outgoing_priority) (Services : List service)
    (sorted : List characteristic_handle_pair)
    (h : characteristics_sorted_by_priority Priorities Services = some sorted) :
    ∃ with_handles,
      characteristics_with_attribute_handles Priorities Services = some with_handles
      ∧ characteristics_only_with_cccd Priorities Services
          = some (with_handles.filter has_cccd)
      ∧ sorted = stable_sort order_by_prio (with_handles.filter has_cccd) := by
  cases hwith : characteristics_with_attribute_handles Priorities Services with
  | none =>
    simp [characteristics_sorted_by_priority, characteristics_only_with_cccd, hwith] at h
  | some with_handles =>
    have honly := only_with_cccd_eq Priorities Services with_handles hwith
    rw [sorted_eq Priorities Services _ honly] at h
    exact ⟨with_handles, rfl, honly, by simpa using h.symm⟩

/-! ## C3, C4 and C7: the priorities of the documented services -/

/-- C3, the code at `higher_outgoing_priority< A, B, C >`: A accounts for 2 additional
priorities and B for 1, and the base priority of C, named third, is 1, the number of B alone
and not the sum 3 of the numbers of A and B. -/
theorem service_base_priority_of_third_named_service :
    number_of_additional_priorities example_server.documented_services
        (example_server.service_uuid 1) = some 2
    ∧ number_of_additional_priorities example_server.documented_services
        (example_server.service_uuid 2) = some 1
    ∧ higher_outgoing_priority.service_base_priority example_server.three_named
        example_server.documented_services example_server.C = some 1 := by
  decide

/-- C4, the code at `higher_outgoing_priority< A, B >`: the base priority of B, named last,
is 2 and B accounts for 1 additional priority, and the base priority of C, which is not named,
is 1 and not 2 + 1. -/
theorem service_base_priority_of_service_not_named :
    higher_outgoing_priority.service_base_priority example_server.two_named
        example_server.documented_services example_server.B = some 2
    ∧ number_of_additional_priorities example_server.documented_services
        (example_server.service_uuid 2) = some 1
    ∧ higher_outgoing_priority.service_base_priority example_server.two_named
        example_server.documented_services example_server.C = some 1 := by
  decide

/-- C7, the code at the documented server: in declared order the characteristics A.a, A.b,
A.c, B.a, B.b, B.c, C.a, C.b, C.c start at the handles 2, 5, 8, 12, 15, 18, 22, 25, 28 and have
the priorities 1, 0, 1, 2, 2, 2, 2, 3, 4; the priority ordered list, as pairs of first attribute
handle and priority, is A.b, A.a, A.c, B.a, B.b, B.c, C.a, C.b, C.c. -/
theorem documented_server_sorted_by_priority :
    (characteristics_with_attribute_handles example_server.documented_priorities
        example_server.documented_services).map
      (fun Pairs => Pairs.map (fun Pair => (Pair.first_attribute_handle, Pair.priority)))
      = some [(2, 1), (5, 0), (8, 1), (12, 2), (15, 2), (18, 2), (22, 2), (25, 3), (28, 4)]
    ∧ (characteristics_sorted_by_priority example_server.documented_priorities
        example_server.documented_services).map
      (fun Pairs => Pairs.map (fun Pair => (Pair.first_attribute_handle, Pair.priority)))
      = some [(5, 0), (2, 1), (8, 1), (12, 2), (15, 2), (18, 2), (22, 2), (25, 3), (28, 4)] := by
  decide

/-! ## C5 and C6: witnesses -/

/-- Witness of C5: the documented server. -/
theorem sorted_by_priority_ascending_and_stable_witness :
    (∀ i j, ∀ hij : i < j, ∀ hj : j < example_server.documented_sorted.length,
        (example_server.documented_sorted.get ⟨i, by omega⟩).priority
          ≤ (example_server.documented_sorted.get ⟨j, hj⟩).priority)
    ∧ (∀ prio : Int,
        example_server.documented_sorted.filter (fun Pair => decide (Pair.priority = prio))
          = example_server.documented_only_with_cccd.filter
              (fun Pair => decide (Pair.priority = prio))) :=
  sorted_by_priority_ascending_and_stable example_server.documented_priorities
    example_server.documented_services example_server.documented_only_with_cccd
    example_server.documented_sorted (by rfl) (by rfl)

/-- Witness of C6: the server with the mixed service and the service A, raised by the server
option `higher_outgoing_priority< A >`. -/
theorem sorted_by_priority_is_permutation_of_cccd_entries_witness :
    example_server.mixed_with_handles.map (fun Pair => Pair.characteristic_t)
        = (example_server.mixed_services.map
            (fun Service => Service.characteristics)).flatten
    ∧ example_server.mixed_sorted.Perm
        (example_server.mixed_with_handles.filter
          (fun Pair => decide (Pair.characteristic_t.number_of_client_configs ≠ 0)))
    ∧ (example_server.mixed_sorted.map (fun Pair => Pair.characteristic_t)).Perm
        ((example_server.mixed_services.map
            (fun Service => Service.characteristics)).flatten.filter
          (fun C => decide (C.number_of_client_configs ≠ 0)))
    ∧ (∀ Pair ∈ example_server.mixed_sorted,
        Pair.characteristic_t.number_of_client_configs ≠ 0) :=
  sorted_by_priority_is_permutation_of_cccd_entries example_server.documented_priorities
    example_server.mixed_services example_server.mixed_with_handles
    example_server.mixed_sorted (by rfl) (by rfl)

/-! ## C15: `number_of_additional_priorities` -/

/-- C15: for the service found for `ServiceUUID`, with a rule that names `s` characteristics
and with `c = number_of_client_configs`, `number_of_additional_priorities` is `s` when `s > 0`
and `s = c`, is `s + 1` when `s != c`, is 1 when `s = 0`, and is at least 1 in every case. -/
theorem number_of_additional_priorities_value (Services : List service) (ServiceUUID : uuid)
    (found : service) (UUIDs : List uuid)
    (hfind : find_if Services (fun Service => decide (Service.uuid = ServiceUUID)) = some found)
    (hrule : found.notification_priority = outgoing_priority.higher_outgoing_priority UUIDs) :
    ∃ n : Int, number_of_additional_priorities Services ServiceUUID = some n
      ∧ (0 < UUIDs.length → UUIDs.length = found.number_of_client_configs →
          n = (UUIDs.length : Int))
      ∧ (UUIDs.length ≠ found.number_of_client_configs → n = (UUIDs.length : Int) + 1)
      ∧ (UUIDs.length = 0 → n = 1)
      ∧ 1 ≤ n := by
  have hvalue : number_of_additional_priorities Services ServiceUUID
      = some (if (if UUIDs.length = found.number_of_client_configs
                  then UUIDs.length else UUIDs.length + 1) = 0
              then (1 : Int)
              else (((if UUIDs.length = found.number_of_client_configs
                  then UUIDs.length else UUIDs.length + 1 : Nat)) : Int)) := by
    simp only [number_of_additional_priorities, hfind, hrule, outgoing_priority.size]
  refine ⟨_, hvalue, ?_, ?_, ?_, ?_⟩
  · intro hpos hsc
    rw [if_pos hsc, if_neg (by omega)]
  · intro hsc
    rw [if_neg hsc, if_neg (by omega)]
    simp
  · intro h0
    by_cases hsc : UUIDs.length = found.number_of_client_configs
    · rw [if_pos hsc, if_pos h0]
    · rw [if_neg hsc, if_neg (by omega), h0]
      rfl
  · by_cases hsc : UUIDs.length = found.number_of_client_configs
    · by_cases h0 : UUIDs.length = 0
      · rw [if_pos hsc, if_pos h0]
      · rw [if_pos hsc, if_neg h0]
        omega
    · rw [if_neg hsc, if_neg (by omega)]
      omega

/-- Witness of C15: service A of the documented server, with one named characteristic and three
client characteristic configurations. -/
theorem number_of_additional_priorities_value_witness :
    ∃ n : Int, number_of_additional_priorities example_server.documented_services
        (example_server.service_uuid 1) = some n
      ∧ (0 < [example_server.characteristic_uuid 2].length →
          [example_server.characteristic_uuid 2].length
            = example_server.A.number_of_client_configs →
          n = ([example_server.characteristic_uuid 2].length : Int))
      ∧ ([example_server.characteristic_uuid 2].length
            ≠ example_server.A.number_of_client_configs →
          n = ([example_server.characteristic_uuid 2].length : Int) + 1)
      ∧ ([example_server.characteristic_uuid 2].length = 0 → n = 1)
      ∧ 1 ≤ n :=
  number_of_additional_priorities_value example_server.documented_services
    (example_server.service_uuid 1) example_server.A [example_server.characteristic_uuid 2]
    (by rfl) (by rfl)

/-! ## `sum_up_attributes` -/

theorem sum_up_attributes_eq (Ps : List attribute_provider) :
    sum_up_attributes Ps = attribute_count Ps := by
  induction Ps with
  | nil => simp [sum_up_attributes, attribute_count]
  | cons T Ts ih => rw [attribute_count_cons, sum_up_attributes, ih]

/-! ## C19: the parameters of a rule -/

theorem check_server_parameter_some (Us : List uuid)
    (h : ∀ U ∈ Us, U.meta_type = uuid_meta_type.service_uuid_meta_type) :
    check_server_parameter Us = some true := by
  simp only [check_server_parameter, count_by_meta_type]
  rw [if_pos]
  rw [List.filter_length_eq_length]
  intro U hU
  simpa using h U hU

theorem check_server_parameter_none (Us : List uuid)
    (h : ∃ U ∈ Us, U.meta_type ≠ uuid_meta_type.service_uuid_meta_type) :
    check_server_parameter Us = none := by
  simp only [check_server_parameter, count_by_meta_type]
  rw [if_neg]
  rw [List.filter_length_eq_length]
  intro hall
  obtain ⟨U, hU, hne⟩ := h
  exact hne (by simpa using hall U hU)

theorem check_service_parameter_some (Us : List uuid)
    (h : ∀ U ∈ Us, U.meta_type = uuid_meta_type.characteristic_uuid_meta_type) :
    check_service_parameter Us = some true := by
  simp only [check_service_parameter, count_by_meta_type]
  rw [if_pos]
  rw [List.filter_length_eq_length]
  intro U hU
  simpa using h U hU

theorem check_service_parameter_none (Us : List uuid)
    (h : ∃ U ∈ Us, U.meta_type ≠ uuid_meta_type.characteristic_uuid_meta_type) :
    check_service_parameter Us = none := by
  simp only [check_service_parameter, count_by_meta_type]
  rw [if_neg]
  rw [List.filter_length_eq_length]
  intro hall
  obtain ⟨U, hU, hne⟩ := h
  exact hne (by simpa using hall U hU)

/-- C19: `characteristic_priority` of a server rule has a value only if every UUID of the rule
is a service UUID, and `characteristic_position` of a service rule has a value only if every
UUID of the rule is a characteristic UUID; with one UUID of the wrong kind the check fails and
there is no priority and no position. -/
theorem rule_with_wrong_kind_of_uuid_fails (UUIDs : List uuid) (Services : List service)
    (Service : service) (Characteristic : characteristic) :
    (∀ prio,
        higher_outgoing_priority.characteristic_priority UUIDs Services Service Characteristic
          = some prio →
        ∀ U ∈ UUIDs, U.meta_type = uuid_meta_type.service_uuid_meta_type)
    ∧ ((∃ U ∈ UUIDs, U.meta_type ≠ uuid_meta_type.service_uuid_meta_type) →
        check_server_parameter UUIDs = none
        ∧ higher_outgoing_priority.characteristic_priority UUIDs Services Service
            Characteristic = none)
    ∧ (∀ position,
        higher_outgoing_priority.characteristic_position UUIDs Characteristic = some position →
        ∀ U ∈ UUIDs, U.meta_type = uuid_meta_type.characteristic_uuid_meta_type)
    ∧ ((∃ U ∈ UUIDs, U.meta_type ≠ uuid_meta_type.characteristic_uuid_meta_type) →
        check_service_parameter UUIDs = none
        ∧ higher_outgoing_priority.characteristic_position UUIDs Characteristic = none) := by
  have hserver : (∃ U ∈ UUIDs, U.meta_type ≠ uuid_meta_type.service_uuid_meta_type) →
      check_server_parameter UUIDs = none
      ∧ higher_outgoing_priority.characteristic_priority UUIDs Services Service
          Characteristic = none := by
    intro h
    have hc := check_server_parameter_none UUIDs h
    exact ⟨hc, by simp [higher_outgoing_priority.characteristic_priority, hc]⟩
  have hservice : (∃ U ∈ UUIDs, U.meta_type ≠ uuid_meta_type.characteristic_uuid_meta_type) →
      check_service_parameter UUIDs = none
      ∧ higher_outgoing_priority.characteristic_position UUIDs Characteristic = none := by
    intro h
    have hc := check_service_parameter_none UUIDs h
    exact ⟨hc, by simp [higher_outgoing_priority.characteristic_position, hc]⟩
  refine ⟨?_, hserver, ?_, hservice⟩
  · intro prio hprio U hU
    by_contra hne
    have := (hserver ⟨U, hU, hne⟩).2
    rw [this] at hprio
    simp at hprio
  · intro position hposition U hU
    by_contra hne
    have := (hservice ⟨U, hU, hne⟩).2
    rw [this] at hposition
    simp at hposition

/-- Witness of C19: a server rule that names a characteristic UUID and a service rule that names
a service UUID. -/
theorem rule_with_wrong_kind_of_uuid_fails_witness :
    (check_server_parameter example_server.wrong_server_rule = none
      ∧ higher_outgoing_priority.characteristic_priority example_server.wrong_server_rule
          example_server.documented_services example_server.A (example_server.notifying 1 1)
          = none)
    ∧ (check_service_parameter example_server.wrong_service_rule = none
      ∧ higher_outgoing_priority.characteristic_position example_server.wrong_service_rule
          (example_server.notifying 1 1) = none) :=
  ⟨(rule_with_wrong_kind_of_uuid_fails example_server.wrong_server_rule
      example_server.documented_services example_server.A (example_server.notifying 1 1)).2.1
      ⟨example_server.characteristic_uuid 2, by decide, by decide⟩,
    (rule_with_wrong_kind_of_uuid_fails example_server.wrong_service_rule
      example_server.documented_services example_server.A (example_server.notifying 1 1)).2.2.2
      ⟨example_server.service_uuid 2, by decide, by decide⟩⟩

/-! ## C13: a service that is not named in the server rule -/

/-- C13, the code at the documented services with the server option
`higher_outgoing_priority< A, B >`: in declared order the characteristics A.a, A.b, A.c, B.a,
B.b, B.c, C.a, C.b, C.c start at the handles 2, 5, 8, 12, 15, 18, 22, 25, 28 and have the
priorities 1, 0, 1, 2, 2, 2, 1, 2, 3; in the priority ordered list C.a, of the service C that is
not named, comes before all characteristics of B, the service named last. -/
theorem service_not_named_ranks_before_last_named :
    (characteristics_with_attribute_handles
        (outgoing_priority.higher_outgoing_priority example_server.two_named)
        example_server.documented_services).map
      (fun Pairs => Pairs.map (fun Pair => (Pair.first_attribute_handle, Pair.priority)))
      = some [(2, 1), (5, 0), (8, 1), (12, 2), (15, 2), (18, 2), (22, 1), (25, 2), (28, 3)]
    ∧ (characteristics_sorted_by_priority
        (outgoing_priority.higher_outgoing_priority example_server.two_named)
        example_server.documented_services).map
      (fun Pairs => Pairs.map (fun Pair => (Pair.first_attribute_handle, Pair.priority)))
      = some [(5, 0), (2, 1), (8, 1), (22, 1), (12, 2), (15, 2), (18, 2), (25, 2), (28, 3)] := by
  decide

/-! ## C20: `lower_outgoing_priority` -/

theorem fold_left_none {α σ : Type} (Ts : List α) (Operation : σ → α → Option σ) (Start : σ)
    (T : α) (hT : T ∈ Ts) (hnone : ∀ s, Operation s T = none) :
    fold_left Ts Operation Start = none := by
  induction Ts generalizing Start with
  | nil => simp at hT
  | cons U Us ih =>
    simp only [fold_left]
    split
    · rfl
    · rename_i s hs
      rcases List.mem_cons.1 hT with h | h
      · rw [← h, hnone] at hs
        simp at hs
      · exact ih s h

theorem characteristics_from_service_none (Priorities : outgoing_priority)
    (Services : List service) (Service : service)
    (hnone : ∀ C, Priorities.characteristic_priority Services Service C = none)
    (Characteristics : List characteristic_with_service_attribute_offset) :
    characteristics_from_service Priorities Services Characteristics Service = none := by
  simp only [characteristics_from_service]
  cases hcs : Service.characteristics with
  | nil => simp [characteristics_from_service.add_service_offset]
  | cons C Cs =>
    simp [characteristics_from_service.add_service_offset, hnone C]

theorem sorted_none_of_all_none (Priorities : outgoing_priority) (Services : List service)
    (h : all_characteristics Priorities Services = none) :
    characteristics_sorted_by_priority Priorities Services = none := by
  simp [characteristics_sorted_by_priority, characteristics_only_with_cccd,
    characteristics_with_attribute_handles, h]

theorem only_none_of_all_none (Priorities : outgoing_priority) (Services : List service)
    (h : all_characteristics Priorities Services = none) :
    characteristics_only_with_cccd Priorities Services = none := by
  simp [characteristics_only_with_cccd, characteristics_with_attribute_handles, h]

/-- C20, as stated, fails: with `lower_outgoing_priority< a >` as the option of service B the
instantiation for the documented server is ill-formed, and with no option at B it has the nine
entries of the documented server. -/
theorem lower_outgoing_priority_of_service_B_is_ill_formed :
    characteristics_sorted_by_priority example_server.documented_priorities
        example_server.documented_services_lower = none
    ∧ (characteristics_sorted_by_priority example_server.documented_priorities
        example_server.documented_services).map (fun Pairs => Pairs.length) = some 9 :=
  ⟨by rfl, by decide⟩

/-- C20, amended: `lower_outgoing_priority` has none of the members `characteristic_priority`,
`characteristic_position` and `size`; with it as the option of a server that has a service, or
as the option of one of the services, `find_notification_data_in_list` is ill-formed: there are
no priorities, no `characteristics_sorted_by_priority` and neither of the two functions. -/
theorem lower_outgoing_priority_is_ill_formed (Priorities : outgoing_priority)
    (Services : List service)
    (h : (∃ UUIDs, Priorities = outgoing_priority.lower_outgoing_priority UUIDs ∧ Services ≠ [])
      ∨ (∃ Service ∈ Services, ∃ UUIDs,
          Service.notification_priority = outgoing_priority.lower_outgoing_priority UUIDs)) :
    all_characteristics Priorities Services = none
    ∧ characteristics_sorted_by_priority Priorities Services = none
    ∧ (∀ w index, find_notification_data_by_index w Priorities Services index = none)
    ∧ (∀ w value, find_notification_data w Priorities Services value = none) := by
  have hall : all_characteristics Priorities Services = none := by
    rcases h with ⟨UUIDs, hP, hne⟩ | ⟨Service, hS, UUIDs, hrule⟩
    · cases hServices : Services with
      | nil => exact absurd hServices hne
      | cons Service rest =>
        rw [← hServices]
        apply fold_left_none Services _ _ Service (by rw [hServices]; exact List.mem_cons_self _ _)
        intro Characteristics
        apply characteristics_from_service_none
        intro C
        rw [hP]
        rfl
    · apply fold_left_none Services _ _ Service hS
      intro Characteristics
      apply characteristics_from_service_none
      intro C
      cases Priorities with
      | lower_outgoing_priority Us => rfl
      | higher_outgoing_priority Us =>
        simp only [outgoing_priority.characteristic_priority,
          higher_outgoing_priority.characteristic_priority, hrule,
          outgoing_priority.characteristic_position]
        split
        · rfl
        · split <;> simp_all
  refine ⟨hall, sorted_none_of_all_none _ _ hall, ?_, ?_⟩
  · intro w index
    simp [find_notification_data_by_index, sorted_none_of_all_none _ _ hall]
  · intro w value
    simp [find_notification_data, only_none_of_all_none _ _ hall]

/-- Witness of C20, amended: the documented server with `lower_outgoing_priority< a >` as the
option of service B. -/
theorem lower_outgoing_priority_is_ill_formed_witness :
    all_characteristics example_server.documented_priorities
        example_server.documented_services_lower = none
    ∧ characteristics_sorted_by_priority example_server.documented_priorities
        example_server.documented_services_lower = none
    ∧ (∀ w index, find_notification_data_by_index w example_server.documented_priorities
        example_server.documented_services_lower index = none)
    ∧ (∀ w value, find_notification_data w example_server.documented_priorities
        example_server.documented_services_lower value = none) :=
  lower_outgoing_priority_is_ill_formed example_server.documented_priorities
    example_server.documented_services_lower
    (Or.inr ⟨example_server.B_lower, by simp [example_server.documented_services_lower],
      [example_server.characteristic_uuid 1], rfl⟩)

/-! ## the priorities of the entries -/

theorem add_service_offset_rest_priority (Priorities : outgoing_priority)
    (Services : List service) (Service : service) (Cs : List characteristic)
    (tail : List characteristic_with_service_attribute_offset)
    (h : characteristics_from_service.add_service_offset_rest Priorities Services Service Cs
      = some tail) :
    ∀ Pair ∈ tail, Pair.characteristic_t ∈ Cs
      ∧ Priorities.characteristic_priority Services Service Pair.characteristic_t
          = some Pair.priority := by
  induction Cs generalizing tail with
  | nil =>
    simp [characteristics_from_service.add_service_offset_rest] at h
    simp [h]
  | cons C Cs ih =>
    simp only [characteristics_from_service.add_service_offset_rest] at h
    split at h
    · rename_i Prio rest hPrio hrest
      simp at h
      subst h
      intro Pair hPair
      rcases List.mem_cons.1 hPair with hP | hP
      · rw [hP]
        exact ⟨List.mem_cons_self _ _, hPrio⟩
      · obtain ⟨h1, h2⟩ := ih rest hrest Pair hP
        exact ⟨List.mem_cons_of_mem _ h1, h2⟩
    · simp at h

theorem add_service_offset_priority (Priorities : outgoing_priority) (Services : List service)
    (Service : service) (block : List characteristic_with_service_attribute_offset)
    (h : characteristics_from_service.add_service_offset Priorities Services Service
      Service.characteristics = some block) :
    ∀ Pair ∈ block, Pair.characteristic_t ∈ Service.characteristics
      ∧ Priorities.characteristic_priority Services Service Pair.characteristic_t
          = some Pair.priority := by
  cases hcs : Service.characteristics with
  | nil =>
    rw [hcs] at h
    simp [characteristics_from_service.add_service_offset] at h
  | cons C Cs =>
    rw [hcs] at h
    simp only [characteristics_from_service.add_service_offset] at h
    split at h
    · split at h
      · rename_i Prio tail hPrio htail
        simp at h
        subst h
        intro Pair hPair
        rcases List.mem_cons.1 hPair with hP | hP
        · rw [hP]
          exact ⟨List.mem_cons_self _ _, hPrio⟩
        · obtain ⟨h1, h2⟩ :=
            add_service_offset_rest_priority Priorities Services Service Cs tail htail Pair hP
          exact ⟨List.mem_cons_of_mem _ h1, h2⟩
      · simp at h
    · simp at h

theorem blocks_priority (Priorities : outgoing_priority) (Services folded : List service)
    (blocks : List (List characteristic_with_service_attribute_offset))
    (h : List.Forall₂
          (fun Service block =>
            characteristics_from_service.add_service_offset Priorities Services Service
              Service.characteristics = some block)
          folded blocks) :
    ∀ Pair ∈ blocks.flatten, ∃ Service ∈ folded,
      Pair.characteristic_t ∈ Service.characteristics
      ∧ Priorities.characteristic_priority Services Service Pair.characteristic_t
          = some Pair.priority := by
  induction h with
  | nil => simp
  | @cons Service block rest blocks_rest hblock _ ih =>
    intro Pair hPair
    simp only [List.flatten_cons, List.mem_append] at hPair
    rcases hPair with hP | hP
    · obtain ⟨h1, h2⟩ := add_service_offset_priority Priorities Services Service block hblock
        Pair hP
      exact ⟨Service, List.mem_cons_self _ _, h1, h2⟩
    · obtain ⟨S2, hS2, h1, h2⟩ := ih Pair hP
      exact ⟨S2, List.mem_cons_of_mem _ hS2, h1, h2⟩

theorem assign_handles_mem (next : Nat)
    (all : List characteristic_with_service_attribute_offset)
    (Pair : characteristic_handle_pair) (h : Pair ∈ assign_handles next all) :
    ∃ C ∈ all, Pair.characteristic_t = C.characteristic_t ∧ Pair.priority = C.priority := by
  induction all generalizing next with
  | nil => simp [assign_handles] at h
  | cons C Cs ih =>
    simp only [assign_handles, List.mem_cons] at h
    rcases h with hP | hP
    · exact ⟨C, List.mem_cons_self _ _, by rw [hP], by rw [hP]⟩
    · obtain ⟨D, hD, h1, h2⟩ := ih _ hP
      exact ⟨D, List.mem_cons_of_mem _ hD, h1, h2⟩

theorem with_handles_priority (Priorities : outgoing_priority) (Services : List service)
    (with_handles : List characteristic_handle_pair)
    (h : characteristics_with_attribute_handles Priorities Services = some with_handles) :
    ∀ Pair ∈ with_handles, ∃ Service ∈ Services,
      Pair.characteristic_t ∈ Service.characteristics
      ∧ Priorities.characteristic_priority Services Service Pair.characteristic_t
          = some Pair.priority := by
  obtain ⟨blocks, h1, _, h3⟩ := with_handles_eq Priorities Services with_handles h
  intro Pair hPair
  rw [h1] at hPair
  obtain ⟨C, hC, hchar, hprio⟩ := assign_handles_mem 1 _ Pair hPair
  obtain ⟨Service, hS, hmem, hp⟩ := blocks_priority Priorities Services Services blocks h3 C hC
  exact ⟨Service, hS, by rw [hchar]; exact hmem, by rw [hchar, hprio]; exact hp⟩

theorem sorted_priority (Priorities : outgoing_priority) (Services : List service)
    (sorted : List characteristic_handle_pair)
    (h : characteristics_sorted_by_priority Priorities Services = some sorted) :
    ∀ Pair ∈ sorted, ∃ Service ∈ Services,
      Pair.characteristic_t ∈ Service.characteristics
      ∧ Priorities.characteristic_priority Services Service Pair.characteristic_t
          = some Pair.priority := by
  obtain ⟨with_handles, hwith, _, hs⟩ := sorted_spec Priorities Services sorted h
  intro Pair hPair
  have h2 : Pair ∈ stable_sort order_by_prio (with_handles.filter has_cccd) := hs ▸ hPair
  exact with_handles_priority Priorities Services with_handles hwith Pair
    (List.mem_filter.1 ((stable_sort_perm _ _).subset h2)).1

theorem stable_sort_of_sorted {α : Type} (Order : α → α → Bool) (Ts : List α)
    (h : Ts.Pairwise (fun A B => Order B A = false)) :
    stable_sort Order Ts = Ts := by
  induction Ts with
  | nil => simp [stable_sort]
  | cons T Ts ih =>
    rw [List.pairwise_cons] at h
    simp only [stable_sort]
    rw [ih h.2]
    cases Ts with
    | nil => simp [stable_sort.insert_ordered]
    | cons U Us =>
      simp only [stable_sort.insert_ordered]
      rw [if_neg]
      simp [h.1 U (List.mem_cons_self _ _)]

theorem sorted_position_of_priority (Pairs : List characteristic_handle_pair)
    (hsorted : Pairs.Pairwise (fun A B => A.priority ≤ B.priority))
    (a b : Nat) (ha : a < Pairs.length) (hb : b < Pairs.length)
    (hlt : (Pairs.get ⟨a, ha⟩).priority < (Pairs.get ⟨b, hb⟩).priority) : a < b := by
  by_contra hnot
  rcases Nat.lt_or_eq_of_le (Nat.le_of_not_lt hnot) with h | h
  · have := (List.pairwise_iff_get.1 hsorted) ⟨b, hb⟩ ⟨a, ha⟩ h
    omega
  · subst h
    omega

/-! ## the priority in a server without rules -/

theorem characteristic_priority_without_rules (Services : List service) (Service : service)
    (C : characteristic)
    (hrule : Service.notification_priority = outgoing_priority.higher_outgoing_priority []) :
    (outgoing_priority.higher_outgoing_priority []).characteristic_priority Services Service C
      = some 0 := by
  simp [outgoing_priority.characteristic_priority,
    higher_outgoing_priority.characteristic_priority, check_server_parameter,
    count_by_meta_type, higher_outgoing_priority.service_base_priority, fold_left, hrule,
    outgoing_priority.characteristic_position,
    higher_outgoing_priority.characteristic_position, check_service_parameter, index_of]

/-! ## C14: `characteristic_position` -/

theorem index_of_first (U : uuid) (UUIDs : List uuid) (i : Nat)
    (hat : UUIDs[i]? = some U) (hfirst : U ∉ UUIDs.take i) :
    index_of U UUIDs = (i : Int) := by
  induction UUIDs generalizing i with
  | nil => simp at hat
  | cons V Vs ih =>
    cases i with
    | zero =>
      simp at hat
      simp [index_of, hat]
    | succ k =>
      simp only [List.take_succ_cons, List.mem_cons, not_or] at hfirst
      simp only [List.getElem?_cons_succ] at hat
      simp only [index_of]
      rw [if_neg hfirst.1, ih k hat hfirst.2]
      simp

theorem index_of_absent (U : uuid) (UUIDs : List uuid) (h : U ∉ UUIDs) :
    index_of U UUIDs = (UUIDs.length : Int) := by
  induction UUIDs with
  | nil => simp [index_of]
  | cons V Vs ih =>
    simp only [List.mem_cons, not_or] at h
    simp only [index_of]
    rw [if_neg h.1, ih h.2]
    simp

theorem index_of_named (U : uuid) (UUIDs : List uuid) (h : U ∈ UUIDs) :
    index_of U UUIDs < (UUIDs.length : Int) := by
  induction UUIDs with
  | nil => simp at h
  | cons V Vs ih =>
    simp only [index_of]
    by_cases hUV : U = V
    · rw [if_pos hUV]
      simp only [List.length_cons]
      omega
    · rw [if_neg hUV]
      rcases List.mem_cons.1 h with h1 | h1
      · exact absurd h1 hUV
      · have := ih h1
        simp only [List.length_cons]
        omega

theorem characteristic_priority_difference (Priorities : outgoing_priority)
    (Services : List service) (Service : service) (UUIDs : List uuid)
    (hrule : Service.notification_priority = outgoing_priority.higher_outgoing_priority UUIDs)
    (C1 C2 : characteristic) (p1 p2 : Int)
    (h1 : Priorities.characteristic_priority Services Service C1 = some p1)
    (h2 : Priorities.characteristic_priority Services Service C2 = some p2) :
    p1 - index_of C1.configured_uuid UUIDs = p2 - index_of C2.configured_uuid UUIDs := by
  cases Priorities with
  | lower_outgoing_priority Us => simp [outgoing_priority.characteristic_priority] at h1
  | higher_outgoing_priority Us =>
    simp only [outgoing_priority.characteristic_priority,
      higher_outgoing_priority.characteristic_priority, hrule,
      outgoing_priority.characteristic_position,
      higher_outgoing_priority.characteristic_position] at h1 h2
    cases hcheck : check_server_parameter Us with
    | none => simp [hcheck] at h1
    | some c =>
      cases hbase : higher_outgoing_priority.service_base_priority Us Services Service with
      | none => simp [hcheck, hbase] at h1
      | some base =>
        cases hservice : check_service_parameter UUIDs with
        | none => simp [hcheck, hbase, hservice] at h1
        | some d =>
          simp [hcheck, hbase, hservice] at h1 h2
          omega

/-- C14: when the check of the rule `higher_outgoing_priority< u0..u(n-1) >` passes,
`characteristic_position` is `i` for a characteristic whose `configured_uuid` first appears in
the list at index `i` and `n` for one whose `configured_uuid` is not in the list. Every entry of
`characteristics_sorted_by_priority` carries the priority of its characteristic in its service;
for two entries that carry the priorities of characteristics of one service with this rule, the
one named earlier has the smaller priority value and the earlier position, two that are not
named have the same priority, and one that is named comes before one that is not. -/
theorem characteristic_position_orders_characteristics (UUIDs : List uuid) :
    (check_service_parameter UUIDs = some true →
      (∀ (C : characteristic) (i : Nat), UUIDs[i]? = some C.configured_uuid →
          C.configured_uuid ∉ UUIDs.take i →
          higher_outgoing_priority.characteristic_position UUIDs C = some (i : Int))
      ∧ (∀ C : characteristic, C.configured_uuid ∉ UUIDs →
          higher_outgoing_priority.characteristic_position UUIDs C
            = some (UUIDs.length : Int)))
    ∧ (∀ (Priorities : outgoing_priority) (Services : List service) (Service : service)
        (sorted : List characteristic_handle_pair),
        Service.notification_priority = outgoing_priority.higher_outgoing_priority UUIDs →
        characteristics_sorted_by_priority Priorities Services = some sorted →
        (∀ Pair ∈ sorted, ∃ Owner ∈ Services,
            Pair.characteristic_t ∈ Owner.characteristics
            ∧ Priorities.characteristic_priority Services Owner Pair.characteristic_t
                = some Pair.priority)
        ∧ (∀ (a b : Nat), ∀ ha : a < sorted.length, ∀ hb : b < sorted.length,
            Priorities.characteristic_priority Services Service
                (sorted.get ⟨a, ha⟩).characteristic_t = some (sorted.get ⟨a, ha⟩).priority →
            Priorities.characteristic_priority Services Service
                (sorted.get ⟨b, hb⟩).characteristic_t = some (sorted.get ⟨b, hb⟩).priority →
            (∀ i j : Nat, i < j →
                UUIDs[i]? = some (sorted.get ⟨a, ha⟩).characteristic_t.configured_uuid →
                (sorted.get ⟨a, ha⟩).characteristic_t.configured_uuid ∉ UUIDs.take i →
                UUIDs[j]? = some (sorted.get ⟨b, hb⟩).characteristic_t.configured_uuid →
                (sorted.get ⟨b, hb⟩).characteristic_t.configured_uuid ∉ UUIDs.take j →
                (sorted.get ⟨a, ha⟩).priority < (sorted.get ⟨b, hb⟩).priority ∧ a < b)
            ∧ ((sorted.get ⟨a, ha⟩).characteristic_t.configured_uuid ∉ UUIDs →
                (sorted.get ⟨b, hb⟩).characteristic_t.configured_uuid ∉ UUIDs →
                (sorted.get ⟨a, ha⟩).priority = (sorted.get ⟨b, hb⟩).priority)
            ∧ ((sorted.get ⟨a, ha⟩).characteristic_t.configured_uuid ∈ UUIDs →
                (sorted.get ⟨b, hb⟩).characteristic_t.configured_uuid ∉ UUIDs →
                (sorted.get ⟨a, ha⟩).priority < (sorted.get ⟨b, hb⟩).priority ∧ a < b))) := by
  constructor
  · intro hcheck
    constructor
    · intro C i hat hfirst
      simp only [higher_outgoing_priority.characteristic_position, hcheck]
      rw [index_of_first _ _ i hat hfirst]
    · intro C habsent
      simp only [higher_outgoing_priority.characteristic_position, hcheck]
      rw [index_of_absent _ _ habsent]
  · intro Priorities Services Service sorted hrule hsorted
    refine ⟨sorted_priority Priorities Services sorted hsorted, ?_⟩
    intro a b ha hb hpa hpb
    have hdiff := characteristic_priority_difference Priorities Services Service UUIDs hrule
      _ _ _ _ hpa hpb
    obtain ⟨with_handles, _, _, hs⟩ := sorted_spec Priorities Services sorted hsorted
    have hpair : sorted.Pairwise (fun A B => A.priority ≤ B.priority) := by
      rw [hs]; exact stable_sort_by_prio_sorted _
    refine ⟨?_, ?_, ?_⟩
    · intro i j hij hai hfi hbj hfj
      rw [index_of_first _ _ i hai hfi, index_of_first _ _ j hbj hfj] at hdiff
      have hlt : (sorted.get ⟨a, ha⟩).priority < (sorted.get ⟨b, hb⟩).priority := by omega
      exact ⟨hlt, sorted_position_of_priority sorted hpair a b ha hb hlt⟩
    · intro hna hnb
      rw [index_of_absent _ _ hna, index_of_absent _ _ hnb] at hdiff
      omega
    · intro hna hnb
      have hnamed := index_of_named _ _ hna
      rw [index_of_absent _ _ hnb] at hdiff
      have hlt : (sorted.get ⟨a, ha⟩).priority < (sorted.get ⟨b, hb⟩).priority := by omega
      exact ⟨hlt, sorted_position_of_priority sorted hpair a b ha hb hlt⟩

/-- Witness of C14: the rule `higher_outgoing_priority< a, b >` of service C of the documented
server; b is named at index 1, c is not named, and the entries of C.a and C.b are at the
positions 6 and 7 of the priority ordered list. -/
theorem characteristic_position_orders_characteristics_witness :
    higher_outgoing_priority.characteristic_position
        [example_server.characteristic_uuid 1, example_server.characteristic_uuid 2]
        (example_server.notifying 3 2) = some 1
    ∧ higher_outgoing_priority.characteristic_position
        [example_server.characteristic_uuid 1, example_server.characteristic_uuid 2]
        (example_server.notifying 3 3) = some 2
    ∧ (example_server.documented_sorted.get ⟨6, by decide⟩).priority
        < (example_server.documented_sorted.get ⟨7, by decide⟩).priority
    ∧ 6 < 7 :=
  ⟨((characteristic_position_orders_characteristics
        [example_server.characteristic_uuid 1, example_server.characteristic_uuid 2]).1
      (by decide)).1 (example_server.notifying 3 2) 1 (by decide) (by decide),
    ((characteristic_position_orders_characteristics
        [example_server.characteristic_uuid 1, example_server.characteristic_uuid 2]).1
      (by decide)).2 (example_server.notifying 3 3) (by decide),
    ((characteristic_position_orders_characteristics
        [example_server.characteristic_uuid 1, example_server.characteristic_uuid 2]).2
      example_server.documented_priorities example_server.documented_services
      example_server.C example_server.documented_sorted (by rfl) (by rfl)).2
      6 7 (by decide) (by decide) (by decide) (by decide)
      |>.1 0 1 (by decide) (by decide) (by decide) (by decide) (by decide)⟩

/-! ## the handles increase -/

theorem assign_handles_increasing (next : Nat)
    (all : List characteristic_with_service_attribute_offset)
    (hone : ∀ C ∈ all, 1 ≤ C.characteristic_t.number_of_attributes) :
    (assign_handles next all).Pairwise
        (fun A B => A.first_attribute_handle < B.first_attribute_handle)
    ∧ ∀ Pair ∈ assign_handles next all, next ≤ Pair.first_attribute_handle := by
  induction all generalizing next with
  | nil => simp [assign_handles]
  | cons C Cs ih =>
    have hC := hone C (List.mem_cons_self _ _)
    obtain ⟨h1, h2⟩ :=
      ih (next + C.service_offset + C.characteristic_t.number_of_attributes)
        (fun D hD => hone D (List.mem_cons_of_mem _ hD))
    simp only [assign_handles]
    constructor
    · rw [List.pairwise_cons]
      refine ⟨?_, h1⟩
      intro Pair hPair
      have := h2 Pair hPair
      simp only
      omega
    · intro Pair hPair
      rcases List.mem_cons.1 hPair with hP | hP
      · rw [hP]
        simp only
        omega
      · have := h2 Pair hP
        omega

/-! ## the constructor and the visit of `find_notification_data` -/

theorem construct_eq_some (handle index : Nat) (h : handle % 65536 ≠ 0) :
    notification_data.construct handle index
      = some { attribute_handle := handle % 65536, index := index } := by
  simp [notification_data.construct, h]

theorem construct_eq_none (handle index : Nat) (h : handle % 65536 = 0) :
    notification_data.construct handle index = none := by
  simp [notification_data.construct, h]

theorem construct_some (handle index : Nat) (data : notification_data)
    (h : notification_data.construct handle index = some data) :
    data.attribute_handle = handle % 65536 ∧ data.attribute_handle ≠ 0 ∧ data.index = index := by
  by_cases h0 : handle % 65536 = 0
  · rw [construct_eq_none handle index h0] at h
    simp at h
  · rw [construct_eq_some handle index h0] at h
    simp at h
    subst h
    exact ⟨rfl, h0, rfl⟩

theorem construct_index_irrelevant (handle index index2 : Nat)
    (h : notification_data.construct handle index = none) :
    notification_data.construct handle index2 = none := by
  by_cases h0 : handle % 65536 = 0
  · exact construct_eq_none handle index2 h0
  · rw [construct_eq_some handle index h0] at h
    simp at h

theorem attribute_value_visit_none (w : Nat) (Pairs : List characteristic_handle_pair) :
    for_.each (attribute_value.visit w) Pairs none = none := by
  induction Pairs with
  | nil => simp [for_.each]
  | cons O Os ih => simp [for_.each, attribute_value.visit, ih]

theorem attribute_value_visit_no_match (w : Nat) (Pairs : List characteristic_handle_pair)
    (f : attribute_value)
    (hno : ∀ O ∈ Pairs, O.characteristic_t.is_this f.value = false) :
    ∃ g, for_.each (attribute_value.visit w) Pairs (some f) = some g
      ∧ g.result = f.result ∧ g.value = f.value := by
  induction Pairs generalizing f with
  | nil => exact ⟨f, by simp [for_.each], rfl, rfl⟩
  | cons O Os ih =>
    have hO := hno O (List.mem_cons_self _ _)
    simp only [for_.each, attribute_value.visit, attribute_value.each, hO]
    obtain ⟨g, hg, hres, hval⟩ :=
      ih { result := f.result, index := (f.index + 1) % 2 ^ w, value := f.value }
        (fun O2 hO2 => hno O2 (List.mem_cons_of_mem _ hO2))
    exact ⟨g, by simpa using hg, hres, hval⟩

theorem attribute_value_visit_last_match (w : Nat) (Pairs : List characteristic_handle_pair)
    (f : attribute_value) (k : Nat) (hk : k < Pairs.length)
    (hlen : f.index + Pairs.length ≤ 2 ^ w)
    (hmatch : Pairs[k].characteristic_t.is_this f.value = true)
    (hlast : ∀ j, ∀ hj : j < Pairs.length, k < j →
      Pairs[j].characteristic_t.is_this f.value = false)
    (hmono : ∀ m, ∀ hm : m < Pairs.length, m < k →
      Pairs[m].characteristic_t.is_this f.value = true →
      (Pairs[m].first_attribute_handle + 1) % 65536 = 0 →
      (Pairs[k].first_attribute_handle + 1) % 65536 = 0) :
    (for_.each (attribute_value.visit w) Pairs (some f)).map (fun g => g.result)
      = notification_data.construct (Pairs[k].first_attribute_handle + 1) (f.index + k) := by
  induction Pairs generalizing f k with
  | nil => simp at hk
  | cons O Os ih =>
    simp only [List.length_cons] at hlen hk
    cases k with
    | zero =>
      simp only [List.getElem_cons_zero] at hmatch
      simp only [for_.each, attribute_value.visit, attribute_value.each, hmatch, if_true,
        List.getElem_cons_zero, Nat.add_zero]
      cases hc : notification_data.construct (O.first_attribute_handle + 1) f.index with
      | none => simp [attribute_value_visit_none]
      | some data =>
        obtain ⟨g, hg, hres, _⟩ := attribute_value_visit_no_match w Os
          { result := data, index := (f.index + 1) % 2 ^ w, value := f.value }
          (by
            intro O2 hO2
            obtain ⟨j, hj, hget⟩ := List.getElem_of_mem hO2
            have := hlast (j + 1) (by simpa using hj) (by omega)
            simp only [List.getElem_cons_succ] at this
            rw [hget] at this
            exact this)
        simp only
        rw [hg]
        simp [hres]
    | succ k =>
      have hidx : (f.index + 1) % 2 ^ w = f.index + 1 := Nat.mod_eq_of_lt (by omega)
      simp only [List.getElem_cons_succ] at hmatch ⊢
      have hrest : ∀ g : attribute_value, g.value = f.value → g.index = f.index + 1 →
          (for_.each (attribute_value.visit w) Os (some g)).map (fun g => g.result)
            = notification_data.construct (Os[k].first_attribute_handle + 1)
                (f.index + (k + 1)) := by
        intro g hval hind
        rw [ih g k (by omega) (by rw [hind]; omega) (by rw [hval]; exact hmatch)]
        · rw [hind]
          congr 1
          omega
        · intro j hj hkj
          have := hlast (j + 1) (by simpa using hj) (by omega)
          simpa [hval] using this
        · intro m hm hmk hthis hzero
          have := hmono (m + 1) (by simpa using hm) (by omega)
            (by simpa [hval] using hthis) (by simpa using hzero)
          simpa using this
      simp only [for_.each, attribute_value.visit, attribute_value.each]
      by_cases hO : O.characteristic_t.is_this f.value = true
      · rw [if_pos hO]
        cases hc : notification_data.construct (O.first_attribute_handle + 1) f.index with
        | none =>
          have hzero : (O.first_attribute_handle + 1) % 65536 = 0 := by
            by_contra hne
            rw [construct_eq_some _ _ hne] at hc
            simp at hc
          have hkzero := hmono 0 (by simp) (by omega) (by simpa using hO) (by simpa using hzero)
          simp only [List.getElem_cons_succ] at hkzero
          simp only [attribute_value_visit_none, Option.map_none']
          rw [construct_eq_none _ _ hkzero]
        | some data =>
          simp only
          exact hrest _ rfl (by simp [hidx])
      · rw [if_neg hO]
        exact hrest _ rfl (by simp [hidx])

theorem attribute_value_visit_not_zero (w : Nat) (Pairs : List characteristic_handle_pair)
    (f g : attribute_value)
    (hg : for_.each (attribute_value.visit w) Pairs (some f) = some g)
    (hsome : ∃ O ∈ Pairs, O.characteristic_t.is_this f.value = true) :
    g.result.attribute_handle ≠ 0 := by
  induction Pairs generalizing f with
  | nil => simp at hsome
  | cons O Os ih =>
    simp only [for_.each, attribute_value.visit, attribute_value.each] at hg
    by_cases hOs : ∃ O2 ∈ Os, O2.characteristic_t.is_this f.value = true
    · by_cases hO : O.characteristic_t.is_this f.value = true
      · rw [if_pos hO] at hg
        cases hc : notification_data.construct (O.first_attribute_handle + 1) f.index with
        | none =>
          rw [hc] at hg
          simp [attribute_value_visit_none] at hg
        | some data =>
          rw [hc] at hg
          exact ih _ hg (by simpa using hOs)
      · rw [if_neg hO] at hg
        exact ih _ hg (by simpa using hOs)
    · have hO : O.characteristic_t.is_this f.value = true := by
        obtain ⟨O2, hO2, hthis⟩ := hsome
        rcases List.mem_cons.1 hO2 with h | h
        · rw [← h]; exact hthis
        · exact absurd ⟨O2, h, hthis⟩ hOs
      rw [if_pos hO] at hg
      cases hc : notification_data.construct (O.first_attribute_handle + 1) f.index with
      | none =>
        rw [hc] at hg
        simp [attribute_value_visit_none] at hg
      | some data =>
        rw [hc] at hg
        obtain ⟨g2, hg2, hres, _⟩ := attribute_value_visit_no_match w Os
          { result := data, index := (f.index + 1) % 2 ^ w, value := f.value }
          (by
            intro O2 hO2
            cases h2 : O2.characteristic_t.is_this f.value with
            | false => rfl
            | true => exact absurd ⟨O2, hO2, h2⟩ hOs)
        simp only at hg
        rw [hg2] at hg
        have hgg : g2 = g := by simpa using hg
        rw [← hgg, hres]
        exact (construct_some _ _ _ hc).2.1

theorem attribute_value_visit_returns (w : Nat) (Pairs : List characteristic_handle_pair)
    (f : attribute_value)
    (hfit : ∀ O ∈ Pairs, (O.first_attribute_handle + 1) % 65536 ≠ 0) :
    ∃ g, for_.each (attribute_value.visit w) Pairs (some f) = some g := by
  induction Pairs generalizing f with
  | nil => exact ⟨f, by simp [for_.each]⟩
  | cons O Os ih =>
    simp only [for_.each, attribute_value.visit, attribute_value.each]
    rw [construct_eq_some _ _ (hfit O (List.mem_cons_self _ _))]
    by_cases hO : O.characteristic_t.is_this f.value = true
    · rw [if_pos hO]
      exact ih _ (fun O2 hO2 => hfit O2 (List.mem_cons_of_mem _ hO2))
    · rw [if_neg hO]
      exact ih _ (fun O2 hO2 => hfit O2 (List.mem_cons_of_mem _ hO2))

/-! ## the handles of a server inside the 16 bit handle space -/

theorem attribute_at_list_out_of_range (Ps : List attribute_provider) (index : Nat)
    (h : sum_up_attributes Ps ≤ index) :
    attribute_at_list.attribute_at Ps index = none := by
  induction Ps generalizing index with
  | nil => simp [attribute_at_list.attribute_at]
  | cons T Ts ih =>
    simp only [sum_up_attributes] at h
    simp only [attribute_at_list.attribute_at]
    rw [if_neg (by omega)]
    exact ih _ (by omega)

theorem assign_handles_monotone (next : Nat)
    (all : List characteristic_with_service_attribute_offset) :
    (assign_handles next all).Pairwise
        (fun A B => A.first_attribute_handle ≤ B.first_attribute_handle)
    ∧ ∀ Pair ∈ assign_handles next all, next ≤ Pair.first_attribute_handle := by
  induction all generalizing next with
  | nil => simp [assign_handles]
  | cons C Cs ih =>
    obtain ⟨h1, h2⟩ :=
      ih (next + C.service_offset + C.characteristic_t.number_of_attributes)
    simp only [assign_handles]
    constructor
    · rw [List.pairwise_cons]
      refine ⟨?_, h1⟩
      intro Pair hPair
      have := h2 Pair hPair
      simp only
      omega
    · intro Pair hPair
      rcases List.mem_cons.1 hPair with hP | hP
      · rw [hP]
        simp only
        omega
      · have := h2 Pair hP
        omega

theorem only_with_cccd_monotone (Priorities : outgoing_priority) (Services : List service)
    (only_with_cccd : List characteristic_handle_pair)
    (honly : characteristics_only_with_cccd Priorities Services = some only_with_cccd) :
    only_with_cccd.Pairwise (fun A B => A.first_attribute_handle ≤ B.first_attribute_handle)
    ∧ ∀ Pair ∈ only_with_cccd, Pair.first_attribute_handle < 65536 := by
  cases hwith : characteristics_with_attribute_handles Priorities Services with
  | none => simp [characteristics_only_with_cccd, hwith] at honly
  | some with_handles =>
    rw [only_with_cccd_eq Priorities Services with_handles hwith] at honly
    have heq : with_handles.filter has_cccd = only_with_cccd := by simpa using honly
    obtain ⟨blocks, hb1, hb2, _⟩ := with_handles_eq Priorities Services with_handles hwith
    rw [← heq]
    constructor
    · apply List.Pairwise.sublist (List.filter_sublist _)
      rw [hb1]
      exact (assign_handles_monotone 1 _).1
    · intro Pair hPair
      exact hb2 Pair (List.mem_filter.1 hPair).1

theorem with_handles_in_handle_space (own : service → Nat → gatt_attribute)
    (Priorities : outgoing_priority) (Services : List service)
    (with_handles : List characteristic_handle_pair)
    (hwith : characteristics_with_attribute_handles Priorities Services = some with_handles)
    (htwo : ∀ Service ∈ Services, ∀ C ∈ Service.characteristics, 2 ≤ C.number_of_attributes)
    (hspace : sum_up_attributes (Services.map (service.provider own)) ≤ 65535) :
    ∀ Pair ∈ with_handles,
      1 ≤ Pair.first_attribute_handle
      ∧ Pair.first_attribute_handle + 1 ≤ 65535
      ∧ attribute_at_list.attribute_at (Services.map (service.provider own))
          Pair.first_attribute_handle
        = some (Pair.characteristic_t.attribute_at 1) := by
  obtain ⟨blocks, hb1, _, hb3⟩ := with_handles_eq Priorities Services with_handles hwith
  intro Pair hPair
  have hnoa : 2 ≤ Pair.characteristic_t.number_of_attributes := by
    obtain ⟨Service, hS, hmem, _⟩ :=
      with_handles_priority Priorities Services with_handles hwith Pair hPair
    exact htwo Service hS _ hmem
  rw [hb1] at hPair
  obtain ⟨h1, h2⟩ := assign_handles_services own Priorities Services Services blocks hb3 1
    Pair hPair 1 (by omega)
  have hindex : Pair.first_attribute_handle - 1 + 1 = Pair.first_attribute_handle := by omega
  rw [hindex] at h2
  refine ⟨h1, ?_, h2⟩
  by_contra hnot
  have hnone := attribute_at_list_out_of_range (Services.map (service.provider own))
    Pair.first_attribute_handle (by omega)
  rw [hnone] at h2
  simp at h2

theorem sorted_mem_with_handles (Priorities : outgoing_priority) (Services : List service)
    (sorted : List characteristic_handle_pair)
    (hsorted : characteristics_sorted_by_priority Priorities Services = some sorted) :
    ∃ with_handles,
      characteristics_with_attribute_handles Priorities Services = some with_handles
      ∧ ∀ Pair ∈ sorted, Pair ∈ with_handles := by
  obtain ⟨with_handles, hwith, _, hs⟩ := sorted_spec Priorities Services sorted hsorted
  refine ⟨with_handles, hwith, ?_⟩
  intro Pair hPair
  have h2 : Pair ∈ stable_sort order_by_prio (with_handles.filter has_cccd) := hs ▸ hPair
  exact (List.mem_filter.1 ((stable_sort_perm _ _).subset h2)).1

theorem only_mem_with_handles (Priorities : outgoing_priority) (Services : List service)
    (only_with_cccd : List characteristic_handle_pair)
    (honly : characteristics_only_with_cccd Priorities Services = some only_with_cccd) :
    ∃ with_handles,
      characteristics_with_attribute_handles Priorities Services = some with_handles
      ∧ ∀ Pair ∈ only_with_cccd, Pair ∈ with_handles := by
  cases hwith : characteristics_with_attribute_handles Priorities Services with
  | none => simp [characteristics_only_with_cccd, hwith] at honly
  | some with_handles =>
    rw [only_with_cccd_eq Priorities Services with_handles hwith] at honly
    have heq : with_handles.filter has_cccd = only_with_cccd := by simpa using honly
    refine ⟨with_handles, rfl, ?_⟩
    intro Pair hPair
    rw [← heq] at hPair
    exact (List.mem_filter.1 hPair).1

/-! ## C1, C8 and C9: `find_notification_data_by_index` -/

/-- C1: for a server with at most 65535 attributes in which every characteristic has at least
two attributes, and for every index `i` in range, `find_notification_data_by_index( i )` returns
a handle `h` with `h >= 1`, and `attribute_at_list::attribute_at( h - 1 )` over the services is
the attribute at local index 1 of the characteristic at position `i` of
`characteristics_sorted_by_priority`. -/
theorem by_index_round_trip (w : Nat) (own : service → Nat → gatt_attribute)
    (Priorities : outgoing_priority) (Services : List service)
    (sorted : List characteristic_handle_pair) (i : Nat)
    (hsorted : characteristics_sorted_by_priority Priorities Services = some sorted)
    (htwo : ∀ Service ∈ Services, ∀ C ∈ Service.characteristics, 2 ≤ C.number_of_attributes)
    (hspace : sum_up_attributes (Services.map (service.provider own)) ≤ 65535)
    (hi : i < sorted.length) (hw : sorted.length ≤ 2 ^ w) :
    ∃ data, find_notification_data_by_index w Priorities Services i = some data
      ∧ 1 ≤ data.attribute_handle
      ∧ attribute_at_list.attribute_at (Services.map (service.provider own))
          (data.attribute_handle - 1)
        = some ((sorted.get ⟨i, hi⟩).characteristic_t.attribute_at 1) := by
  obtain ⟨with_handles, hwith, hmem⟩ := sorted_mem_with_handles Priorities Services sorted hsorted
  obtain ⟨h1, h2, h3⟩ := with_handles_in_handle_space own Priorities Services with_handles hwith
    htwo hspace (sorted.get ⟨i, hi⟩) (hmem _ (List.get_mem _ _ _))
  have hres := attribute_at_each_hit w sorted 0 i hi hw
  have hmod : ((sorted.get ⟨i, hi⟩).first_attribute_handle + 1) % 65536
      = (sorted.get ⟨i, hi⟩).first_attribute_handle + 1 := Nat.mod_eq_of_lt (by omega)
  simp only [List.get_eq_getElem] at hmod h1 h2 h3 ⊢
  refine ⟨{ attribute_handle := sorted[i].first_attribute_handle + 1, index := i }, ?_, ?_, ?_⟩
  · simp only [find_notification_data_by_index, hsorted]
    rw [hres, construct_eq_some _ _ (by rw [Nat.mod_mod, hmod]; omega), Nat.mod_mod, hmod]
  · simp
  · simp only [Nat.add_sub_cancel]
    exact h3

/-- Witness of C1: position 0 of the documented server. -/
theorem by_index_round_trip_witness :
    ∃ data, find_notification_data_by_index 64 example_server.documented_priorities
        example_server.documented_services 0 = some data
      ∧ 1 ≤ data.attribute_handle
      ∧ attribute_at_list.attribute_at
          (example_server.documented_services.map
            (service.provider example_server.own_attribute))
          (data.attribute_handle - 1)
        = some ((example_server.documented_sorted.get ⟨0, by decide⟩).characteristic_t.attribute_at
            1) :=
  by_index_round_trip 64 example_server.own_attribute example_server.documented_priorities
    example_server.documented_services example_server.documented_sorted 0 (by rfl) (by decide)
    (by decide) (by decide) (by decide)

/-- C8: for an index `i` below the number of entries of `characteristics_sorted_by_priority`,
`find_notification_data_by_index( i )` is `notification_data( first_attribute_handle + 1, i )`
for the entry `i`; for a server with at most 65535 attributes whose characteristics have at
least two attributes it returns the attribute handle `first_attribute_handle + 1` of the entry
`i` and the index `i`. -/
theorem by_index_returns_entry (w : Nat) (Priorities : outgoing_priority)
    (Services : List service) (sorted : List characteristic_handle_pair) (i : Nat)
    (hsorted : characteristics_sorted_by_priority Priorities Services = some sorted)
    (hi : i < sorted.length) (hw : sorted.length ≤ 2 ^ w) :
    find_notification_data_by_index w Priorities Services i
        = notification_data.construct ((sorted.get ⟨i, hi⟩).first_attribute_handle + 1) i
    ∧ (∀ own : service → Nat → gatt_attribute,
        (∀ Service ∈ Services, ∀ C ∈ Service.characteristics, 2 ≤ C.number_of_attributes) →
        sum_up_attributes (Services.map (service.provider own)) ≤ 65535 →
        find_notification_data_by_index w Priorities Services i
          = some { attribute_handle := (sorted.get ⟨i, hi⟩).first_attribute_handle + 1,
                   index := i }) := by
  have hres := attribute_at_each_hit w sorted 0 i hi hw
  have hmain : find_notification_data_by_index w Priorities Services i
      = notification_data.construct ((sorted.get ⟨i, hi⟩).first_attribute_handle + 1) i := by
    simp only [find_notification_data_by_index, hsorted, List.get_eq_getElem]
    rw [hres]
    simp [notification_data.construct]
  refine ⟨hmain, ?_⟩
  intro own htwo hspace
  obtain ⟨with_handles, hwith, hmem⟩ := sorted_mem_with_handles Priorities Services sorted hsorted
  obtain ⟨h1, h2, _⟩ := with_handles_in_handle_space own Priorities Services with_handles hwith
    htwo hspace (sorted.get ⟨i, hi⟩) (hmem _ (List.get_mem _ _ _))
  have hmod : ((sorted.get ⟨i, hi⟩).first_attribute_handle + 1) % 65536
      = (sorted.get ⟨i, hi⟩).first_attribute_handle + 1 := Nat.mod_eq_of_lt (by omega)
  rw [hmain, construct_eq_some _ _ (by rw [hmod]; omega), hmod]

/-- Witness of C8: position 3 of the documented server, the characteristic a of service B with
the first attribute handle 12. -/
theorem by_index_returns_entry_witness :
    (example_server.documented_sorted.get ⟨3, by decide⟩).first_attribute_handle = 12
    ∧ find_notification_data_by_index 64 example_server.documented_priorities
        example_server.documented_services 3 = some { attribute_handle := 13, index := 3 } :=
  ⟨by decide,
    (by_index_returns_entry 64 example_server.documented_priorities
      example_server.documented_services example_server.documented_sorted 3 (by rfl)
      (by decide) (by decide)).2 example_server.own_attribute (by decide) (by decide)⟩

/-- C9: for an index `i` that is not below the number of entries of
`characteristics_sorted_by_priority`, no entry is visited with the index 0, the handle stays 0,
the constructor of the returned value ends in the fatal precondition error, and
`find_notification_data_by_index( i )` returns no notification data. -/
theorem by_index_out_of_range (w : Nat) (Priorities : outgoing_priority)
    (Services : List service) (sorted : List characteristic_handle_pair) (i : Nat)
    (hsorted : characteristics_sorted_by_priority Priorities Services = some sorted)
    (hi : sorted.length ≤ i) (hw : i < 2 ^ w) :
    (for_.each (attribute_at.each w) sorted { result := 0, index := i }).result = 0
    ∧ notification_data.construct 0 i = none
    ∧ find_notification_data_by_index w Priorities Services i = none := by
  have hres := attribute_at_each_miss w sorted 0 i hi hw
  refine ⟨hres, rfl, ?_⟩
  simp only [find_notification_data_by_index, hsorted]
  rw [hres]
  rfl

/-- Witness of C9: the indices 9 and 11 of the documented server, which has 9 entries. -/
theorem by_index_out_of_range_witness :
    example_server.documented_sorted.length = 9
    ∧ find_notification_data_by_index 64 example_server.documented_priorities
        example_server.documented_services 9 = none
    ∧ find_notification_data_by_index 64 example_server.documented_priorities
        example_server.documented_services 11 = none :=
  ⟨by decide,
    (by_index_out_of_range 64 example_server.documented_priorities
      example_server.documented_services example_server.documented_sorted 9 (by rfl)
      (by decide) (by decide)).2.2,
    (by_index_out_of_range 64 example_server.documented_priorities
      example_server.documented_services example_server.documented_sorted 11 (by rfl)
      (by decide) (by decide)).2.2⟩

/-! ## C10, C11, C12 and C21: `find_notification_data` -/

/-- C10: when exactly one entry of `characteristics_only_with_cccd`, the one at position `k`,
answers `is_this( v )`, `find_notification_data( v )` is
`notification_data( first_attribute_handle + 1, k )` for that entry; for a server with at most
65535 attributes whose characteristics have at least two attributes it returns the attribute
handle `first_attribute_handle + 1` of that entry and its position `k` in the declared order. -/
theorem by_value_returns_entry (w : Nat) (Priorities : outgoing_priority)
    (Services : List service) (only_with_cccd : List characteristic_handle_pair)
    (v k : Nat)
    (honly : characteristics_only_with_cccd Priorities Services = some only_with_cccd)
    (hk : k < only_with_cccd.length) (hw : only_with_cccd.length ≤ 2 ^ w)
    (hmatch : (only_with_cccd.get ⟨k, hk⟩).characteristic_t.is_this v = true)
    (huniq : ∀ j, ∀ hj : j < only_with_cccd.length,
      (only_with_cccd.get ⟨j, hj⟩).characteristic_t.is_this v = true → j = k) :
    find_notification_data w Priorities Services v
        = notification_data.construct ((only_with_cccd.get ⟨k, hk⟩).first_attribute_handle + 1) k
    ∧ (∀ own : service → Nat → gatt_attribute,
        (∀ Service ∈ Services, ∀ C ∈ Service.characteristics, 2 ≤ C.number_of_attributes) →
        sum_up_attributes (Services.map (service.provider own)) ≤ 65535 →
        find_notification_data w Priorities Services v
          = some { attribute_handle := (only_with_cccd.get ⟨k, hk⟩).first_attribute_handle + 1,
                   index := k }) := by
  have hres := attribute_value_visit_last_match w only_with_cccd
    { result := notification_data.sentinel, index := 0, value := v } k hk
    (by simpa using hw) (by simpa using hmatch)
    (by
      intro j hj hkj
      cases hjv : (only_with_cccd.get ⟨j, hj⟩).characteristic_t.is_this v with
      | false => simp
      | true =>
        have := huniq j hj hjv
        omega)
    (by
      intro m hm hmk hthis _
      have := huniq m hm (by simpa using hthis)
      omega)
  have hmain : find_notification_data w Priorities Services v
      = notification_data.construct
          ((only_with_cccd.get ⟨k, hk⟩).first_attribute_handle + 1) k := by
    simp only [find_notification_data, honly, List.get_eq_getElem]
    simp only [Nat.zero_add] at hres
    rw [← hres]
    cases for_.each (attribute_value.visit w) only_with_cccd
        (some { result := notification_data.sentinel, index := 0, value := v }) <;> rfl
  refine ⟨hmain, ?_⟩
  intro own htwo hspace
  obtain ⟨with_handles, hwith, hmem⟩ :=
    only_mem_with_handles Priorities Services only_with_cccd honly
  obtain ⟨h1, h2, _⟩ := with_handles_in_handle_space own Priorities Services with_handles hwith
    htwo hspace (only_with_cccd.get ⟨k, hk⟩) (hmem _ (List.get_mem _ _ _))
  have hmod : ((only_with_cccd.get ⟨k, hk⟩).first_attribute_handle + 1) % 65536
      = (only_with_cccd.get ⟨k, hk⟩).first_attribute_handle + 1 := Nat.mod_eq_of_lt (by omega)
  rw [hmain, construct_eq_some _ _ (by rw [hmod]; omega), hmod]

/-- Witness of C10: the value 50 of the characteristic b of service C, at position 7 of the
declared order of the documented server, with the first attribute handle 25. -/
theorem by_value_returns_entry_witness :
    (example_server.documented_only_with_cccd.get ⟨7, by decide⟩).first_attribute_handle = 25
    ∧ find_notification_data 64 example_server.documented_priorities
        example_server.documented_services 50 = some { attribute_handle := 26, index := 7 } :=
  ⟨by decide,
    (by_value_returns_entry 64 example_server.documented_priorities
      example_server.documented_services example_server.documented_only_with_cccd 50 7 (by rfl)
      (by decide) (by decide) (by decide) (by decide)).2 example_server.own_attribute
      (by decide) (by decide)⟩

/-- C11: when no entry of `characteristics_only_with_cccd` answers `is_this( v )`,
`find_notification_data( v )` returns the default constructed notification data, whose
attribute handle is 0, and the call returns. -/
theorem by_value_without_match_returns_sentinel (w : Nat) (Priorities : outgoing_priority)
    (Services : List service) (only_with_cccd : List characteristic_handle_pair) (v : Nat)
    (honly : characteristics_only_with_cccd Priorities Services = some only_with_cccd)
    (hno : ∀ Pair ∈ only_with_cccd, Pair.characteristic_t.is_this v = false) :
    find_notification_data w Priorities Services v = some notification_data.sentinel
    ∧ notification_data.sentinel.attribute_handle = 0 := by
  constructor
  · obtain ⟨g, hg, hres, _⟩ := attribute_value_visit_no_match w only_with_cccd
      { result := notification_data.sentinel, index := 0, value := v } (by simpa using hno)
    simp only [find_notification_data, honly, hg, hres]
  · rfl

/-- Witness of C11: the value 65 of the mixed server belongs to the characteristic without a
client characteristic configuration only. -/
theorem by_value_without_match_returns_sentinel_witness :
    (example_server.silent 4 1).is_this 65 = true
    ∧ find_notification_data 64 example_server.documented_priorities
        example_server.mixed_services 65 = some notification_data.sentinel
    ∧ notification_data.sentinel.attribute_handle = 0 :=
  ⟨by decide,
    by_value_without_match_returns_sentinel 64 example_server.documented_priorities
      example_server.mixed_services example_server.mixed_only_with_cccd 65 (by rfl)
      (by decide)⟩

/-- C12, the code at the documented server: the value 17 is the value of exactly one
characteristic, A.a at position 0 of the declared order and at position 1 of
`characteristics_sorted_by_priority`; `find_notification_data( 17 )` returns the handle 3 with
the index 0, and `find_notification_data_by_index( 0 )` returns the handle 6, the one of A.b;
the handle 3 is the one of `find_notification_data_by_index( 1 )`. -/
theorem by_value_index_is_not_priority_index :
    example_server.documented_only_with_cccd.map
        (fun Pair => Pair.characteristic_t.is_this 17)
      = [true, false, false, false, false, false, false, false, false]
    ∧ example_server.documented_sorted.map
        (fun Pair => Pair.characteristic_t.is_this 17)
      = [false, true, false, false, false, false, false, false, false]
    ∧ find_notification_data 64 example_server.documented_priorities
        example_server.documented_services 17 = some { attribute_handle := 3, index := 0 }
    ∧ find_notification_data_by_index 64 example_server.documented_priorities
        example_server.documented_services 0 = some { attribute_handle := 6, index := 0 }
    ∧ find_notification_data_by_index 64 example_server.documented_priorities
        example_server.documented_services 1 = some { attribute_handle := 3, index := 1 } := by
  decide

/-- C21: when an entry at position `j` and a later entry at position `k` of
`characteristics_only_with_cccd` answer `is_this( v )` and no entry after `k` does,
`find_notification_data( v )` is `notification_data( first_attribute_handle + 1, k )` for the
entry `k`, the last match: it returns the position `k` with the 16 bit handle
`first_attribute_handle + 1` of the entry `k` whenever that handle is not 0, as it is for every
server with at most 65535 attributes whose characteristics have at least two attributes, and it
does not return what it would return for the entry `j`. -/
theorem by_value_returns_last_match (w : Nat) (Priorities : outgoing_priority)
    (Services : List service) (only_with_cccd : List characteristic_handle_pair)
    (v j k : Nat)
    (honly : characteristics_only_with_cccd Priorities Services = some only_with_cccd)
    (hk : k < only_with_cccd.length) (hjk : j < k) (hw : only_with_cccd.length ≤ 2 ^ w)
    (_hearlier : (only_with_cccd.get ⟨j, by omega⟩).characteristic_t.is_this v = true)
    (hmatch : (only_with_cccd.get ⟨k, hk⟩).characteristic_t.is_this v = true)
    (hlast : ∀ i, ∀ hi : i < only_with_cccd.length, k < i →
      (only_with_cccd.get ⟨i, hi⟩).characteristic_t.is_this v = false) :
    find_notification_data w Priorities Services v
        = notification_data.construct ((only_with_cccd.get ⟨k, hk⟩).first_attribute_handle + 1) k
    ∧ (((only_with_cccd.get ⟨k, hk⟩).first_attribute_handle + 1) % 65536 ≠ 0 →
        find_notification_data w Priorities Services v
          = some { attribute_handle :=
                     ((only_with_cccd.get ⟨k, hk⟩).first_attribute_handle + 1) % 65536,
                   index := k })
    ∧ (∀ own : service → Nat → gatt_attribute,
        (∀ Service ∈ Services, ∀ C ∈ Service.characteristics, 2 ≤ C.number_of_attributes) →
        sum_up_attributes (Services.map (service.provider own)) ≤ 65535 →
        find_notification_data w Priorities Services v
          = some { attribute_handle := (only_with_cccd.get ⟨k, hk⟩).first_attribute_handle + 1,
                   index := k })
    ∧ find_notification_data w Priorities Services v
        ≠ some { attribute_handle :=
                   ((only_with_cccd.get ⟨j, by omega⟩).first_attribute_handle + 1) % 65536,
                 index := j } := by
  obtain ⟨hpair, hbound⟩ := only_with_cccd_monotone Priorities Services only_with_cccd honly
  have hres := attribute_value_visit_last_match w only_with_cccd
    { result := notification_data.sentinel, index := 0, value := v } k hk
    (by simpa using hw) (by simpa using hmatch)
    (by
      intro i hi hki
      simpa using hlast i hi hki)
    (by
      intro m hm hmk _ hzero
      have hle := (List.pairwise_iff_get.1 hpair) ⟨m, hm⟩ ⟨k, hk⟩ hmk
      have hbm := hbound _ (List.getElem_mem (l := only_with_cccd) hm)
      have hbk := hbound _ (List.getElem_mem (l := only_with_cccd) hk)
      simp only [List.get_eq_getElem] at hle
      omega)
  have hmain : find_notification_data w Priorities Services v
      = notification_data.construct
          ((only_with_cccd.get ⟨k, hk⟩).first_attribute_handle + 1) k := by
    simp only [find_notification_data, honly, List.get_eq_getElem]
    simp only [Nat.zero_add] at hres
    rw [← hres]
    cases for_.each (attribute_value.visit w) only_with_cccd
        (some { result := notification_data.sentinel, index := 0, value := v }) <;> rfl
  refine ⟨hmain, ?_, ?_, ?_⟩
  · intro hne
    rw [hmain, construct_eq_some _ _ hne]
  · intro own htwo hspace
    obtain ⟨with_handles, hwith, hmem⟩ :=
      only_mem_with_handles Priorities Services only_with_cccd honly
    obtain ⟨h1, h2, _⟩ := with_handles_in_handle_space own Priorities Services with_handles
      hwith htwo hspace (only_with_cccd.get ⟨k, hk⟩) (hmem _ (List.get_mem _ _ _))
    have hmod : ((only_with_cccd.get ⟨k, hk⟩).first_attribute_handle + 1) % 65536
        = (only_with_cccd.get ⟨k, hk⟩).first_attribute_handle + 1 :=
      Nat.mod_eq_of_lt (by omega)
    rw [hmain, construct_eq_some _ _ (by rw [hmod]; omega), hmod]
  · rw [hmain]
    intro heq
    obtain ⟨_, _, hindex⟩ := construct_some _ _ _ heq
    simp only at hindex
    omega

/-- Witness of C21: the value 81 of the server with the shared value is answered at the
positions 0 and 2; the result is the handle 9 with the index 2. -/
theorem by_value_returns_last_match_witness :
    example_server.shared_value_only_with_cccd.map
        (fun Pair => (Pair.first_attribute_handle, Pair.characteristic_t.is_this 81))
      = [(2, true), (5, false), (8, true)]
    ∧ find_notification_data 64 example_server.no_priorities
        [example_server.shared_value_service] 81 = some { attribute_handle := 9, index := 2 }
    ∧ find_notification_data 64 example_server.no_priorities
        [example_server.shared_value_service] 81
        ≠ some { attribute_handle :=
                   ((example_server.shared_value_only_with_cccd.get
                      ⟨0, by decide⟩).first_attribute_handle + 1) % 65536,
                 index := 0 } :=
  ⟨by decide,
    (by_value_returns_last_match 64 example_server.no_priorities
      [example_server.shared_value_service] example_server.shared_value_only_with_cccd 81 0 2
      (by rfl) (by decide) (by decide) (by decide) (by decide) (by decide) (by decide)).2.2.1
      example_server.own_attribute (by decide) (by decide),
    (by_value_returns_last_match 64 example_server.no_priorities
      [example_server.shared_value_service] example_server.shared_value_only_with_cccd 81 0 2
      (by rfl) (by decide) (by decide) (by decide) (by decide) (by decide) (by decide)).2.2.2⟩

/-! ## C16: a server without rules -/

/-- C16: when the server option and the option of every service is
`higher_outgoing_priority<>`, `characteristic_priority` is 0 for every characteristic, every
entry has the priority 0, `characteristics_sorted_by_priority` is
`characteristics_only_with_cccd`, and `find_notification_data_by_index( i )` is
`notification_data( first_attribute_handle + 1, i )` for the entry `i` of the declared order:
it returns the index `i` with the 16 bit handle `first_attribute_handle + 1` of that entry
whenever that handle is not 0, as it is for every server with at most 65535 attributes whose
characteristics have at least two attributes. -/
theorem server_without_rules_keeps_declared_order (w : Nat) (Services : List service)
    (only_with_cccd : List characteristic_handle_pair)
    (hrules : ∀ Service ∈ Services,
      Service.notification_priority = outgoing_priority.higher_outgoing_priority [])
    (honly : characteristics_only_with_cccd (outgoing_priority.higher_outgoing_priority [])
      Services = some only_with_cccd) :
    (∀ Service ∈ Services, ∀ C,
        (outgoing_priority.higher_outgoing_priority []).characteristic_priority Services
          Service C = some 0)
    ∧ (∀ Pair ∈ only_with_cccd, Pair.priority = 0)
    ∧ characteristics_sorted_by_priority (outgoing_priority.higher_outgoing_priority [])
        Services = some only_with_cccd
    ∧ (∀ i, ∀ hi : i < only_with_cccd.length, only_with_cccd.length ≤ 2 ^ w →
        find_notification_data_by_index w (outgoing_priority.higher_outgoing_priority [])
            Services i
          = notification_data.construct
              ((only_with_cccd.get ⟨i, hi⟩).first_attribute_handle + 1) i
        ∧ (((only_with_cccd.get ⟨i, hi⟩).first_attribute_handle + 1) % 65536 ≠ 0 →
            find_notification_data_by_index w (outgoing_priority.higher_outgoing_priority [])
                Services i
              = some { attribute_handle :=
                         ((only_with_cccd.get ⟨i, hi⟩).first_attribute_handle + 1) % 65536,
                       index := i })
        ∧ (∀ own : service → Nat → gatt_attribute,
            (∀ Service ∈ Services, ∀ C ∈ Service.characteristics, 2 ≤ C.number_of_attributes) →
            sum_up_attributes (Services.map (service.provider own)) ≤ 65535 →
            find_notification_data_by_index w (outgoing_priority.higher_outgoing_priority [])
                Services i
              = some { attribute_handle :=
                         (only_with_cccd.get ⟨i, hi⟩).first_attribute_handle + 1,
                       index := i })) := by
  have hzero : ∀ Pair ∈ only_with_cccd, Pair.priority = 0 := by
    intro Pair hPair
    cases hwith : characteristics_with_attribute_handles
        (outgoing_priority.higher_outgoing_priority []) Services with
    | none => simp [characteristics_only_with_cccd, hwith] at honly
    | some with_handles =>
      rw [only_with_cccd_eq _ _ with_handles hwith] at honly
      have hmem : Pair ∈ with_handles.filter has_cccd := by
        have : with_handles.filter has_cccd = only_with_cccd := by simpa using honly
        rw [this]; exact hPair
      obtain ⟨Service, hS, _, hp⟩ :=
        with_handles_priority _ Services with_handles hwith Pair (List.mem_filter.1 hmem).1
      rw [characteristic_priority_without_rules Services Service _ (hrules Service hS)] at hp
      simpa using hp.symm
  have hsorted : characteristics_sorted_by_priority
      (outgoing_priority.higher_outgoing_priority []) Services = some only_with_cccd := by
    rw [sorted_eq _ _ only_with_cccd honly, stable_sort_of_sorted]
    rw [List.pairwise_iff_forall_sublist]
    intro A B hAB
    have hA : A ∈ only_with_cccd := hAB.subset (by simp)
    have hB : B ∈ only_with_cccd := hAB.subset (by simp)
    simp [order_by_prio, hzero A hA, hzero B hB]
  refine ⟨?_, hzero, hsorted, ?_⟩
  · intro Service hS C
    exact characteristic_priority_without_rules Services Service C (hrules Service hS)
  · intro i hi hw
    have hres := attribute_at_each_hit w only_with_cccd 0 i hi hw
    have hmain : find_notification_data_by_index w
        (outgoing_priority.higher_outgoing_priority []) Services i
        = notification_data.construct
            ((only_with_cccd.get ⟨i, hi⟩).first_attribute_handle + 1) i := by
      simp only [find_notification_data_by_index, hsorted, List.get_eq_getElem]
      rw [hres]
      simp [notification_data.construct]
    refine ⟨hmain, ?_, ?_⟩
    · intro hne
      rw [hmain, construct_eq_some _ _ hne]
    · intro own htwo hspace
      obtain ⟨with_handles, hwith, hmem⟩ :=
        only_mem_with_handles _ Services only_with_cccd honly
      obtain ⟨h1, h2, _⟩ := with_handles_in_handle_space own _ Services with_handles hwith
        htwo hspace (only_with_cccd.get ⟨i, hi⟩) (hmem _ (List.get_mem _ _ _))
      have hmod : ((only_with_cccd.get ⟨i, hi⟩).first_attribute_handle + 1) % 65536
          = (only_with_cccd.get ⟨i, hi⟩).first_attribute_handle + 1 :=
        Nat.mod_eq_of_lt (by omega)
      rw [hmain, construct_eq_some _ _ (by rw [hmod]; omega), hmod]

/-- Witness of C16: the services A, B and C without options; the index 4 gives the handle 16 of
the entry 4 of the declared order, whose first attribute handle is 15. -/
theorem server_without_rules_keeps_declared_order_witness :
    (example_server.plain_only_with_cccd.get ⟨4, by decide⟩).first_attribute_handle = 15
    ∧ characteristics_sorted_by_priority (outgoing_priority.higher_outgoing_priority [])
        example_server.plain_services = some example_server.plain_only_with_cccd
    ∧ find_notification_data_by_index 64 (outgoing_priority.higher_outgoing_priority [])
        example_server.plain_services 4 = some { attribute_handle := 16, index := 4 } :=
  ⟨by decide,
    (server_without_rules_keeps_declared_order 64 example_server.plain_services
      example_server.plain_only_with_cccd (by decide) (by rfl)).2.2.1,
    ((server_without_rules_keeps_declared_order 64 example_server.plain_services
      example_server.plain_only_with_cccd (by decide) (by rfl)).2.2.2 4 (by decide)
      (by decide)).2.2 example_server.own_attribute (by decide) (by decide)⟩

/-! ## C17: the handles -/

/-- C17: when every characteristic has at least one attribute, the `first_attribute_handle`
values of `characteristics_with_attribute_handles` are strictly increasing in declared order;
the handle of a notification data that `find_notification_data_by_index` returns, and of one
that `find_notification_data` returns for a value that some entry answers, is not 0; and for a
server with at most 65535 attributes whose characteristics have at least two attributes
`find_notification_data_by_index` returns for every index in range and `find_notification_data`
returns for every value that some entry answers. -/
theorem handles_increase_and_reported_handle_is_not_zero (w : Nat)
    (Priorities : outgoing_priority) (Services : List service)
    (with_handles only_with_cccd sorted : List characteristic_handle_pair)
    (hwith : characteristics_with_attribute_handles Priorities Services = some with_handles)
    (honly : characteristics_only_with_cccd Priorities Services = some only_with_cccd)
    (hsorted : characteristics_sorted_by_priority Priorities Services = some sorted)
    (hone : ∀ Service ∈ Services, ∀ C ∈ Service.characteristics, 1 ≤ C.number_of_attributes) :
    with_handles.Pairwise (fun A B => A.first_attribute_handle < B.first_attribute_handle)
    ∧ (∀ i data, find_notification_data_by_index w Priorities Services i = some data →
        data.attribute_handle ≠ 0)
    ∧ (∀ v data, (∃ Pair ∈ only_with_cccd, Pair.characteristic_t.is_this v = true) →
        find_notification_data w Priorities Services v = some data →
        data.attribute_handle ≠ 0)
    ∧ (∀ own : service → Nat → gatt_attribute,
        (∀ Service ∈ Services, ∀ C ∈ Service.characteristics, 2 ≤ C.number_of_attributes) →
        sum_up_attributes (Services.map (service.provider own)) ≤ 65535 →
        (∀ i, i < sorted.length → sorted.length ≤ 2 ^ w →
          ∃ data, find_notification_data_by_index w Priorities Services i = some data
            ∧ data.attribute_handle ≠ 0)
        ∧ (∀ v, (∃ Pair ∈ only_with_cccd, Pair.characteristic_t.is_this v = true) →
          ∃ data, find_notification_data w Priorities Services v = some data
            ∧ data.attribute_handle ≠ 0)) := by
  obtain ⟨blocks, hb1, _, hb3⟩ := with_handles_eq Priorities Services with_handles hwith
  have hindex : ∀ i data, find_notification_data_by_index w Priorities Services i = some data →
      data.attribute_handle ≠ 0 := by
    intro i data hdata
    simp only [find_notification_data_by_index, hsorted] at hdata
    exact (construct_some _ _ _ hdata).2.1
  have hvalue : ∀ v data, (∃ Pair ∈ only_with_cccd, Pair.characteristic_t.is_this v = true) →
      find_notification_data w Priorities Services v = some data →
      data.attribute_handle ≠ 0 := by
    intro v data hv hdata
    simp only [find_notification_data, honly] at hdata
    cases hg : for_.each (attribute_value.visit w) only_with_cccd
        (some { result := notification_data.sentinel, index := 0, value := v }) with
    | none => simp [hg] at hdata
    | some g =>
      simp only [hg, Option.some.injEq] at hdata
      rw [← hdata]
      exact attribute_value_visit_not_zero w only_with_cccd _ g hg (by simpa using hv)
  refine ⟨?_, hindex, hvalue, ?_⟩
  · rw [hb1]
    refine (assign_handles_increasing 1 blocks.flatten ?_).1
    intro C hC
    obtain ⟨Service, hS, hmem, _⟩ :=
      blocks_priority Priorities Services Services blocks hb3 C hC
    exact hone Service hS _ hmem
  · intro own htwo hspace
    have hspace2 := with_handles_in_handle_space own Priorities Services with_handles hwith
      htwo hspace
    obtain ⟨with_handles2, hwith2, hmem_sorted⟩ :=
      sorted_mem_with_handles Priorities Services sorted hsorted
    obtain ⟨with_handles3, hwith3, hmem_only⟩ :=
      only_mem_with_handles Priorities Services only_with_cccd honly
    have heq2 : with_handles2 = with_handles := by
      rw [hwith] at hwith2
      simpa using hwith2.symm
    have heq3 : with_handles3 = with_handles := by
      rw [hwith] at hwith3
      simpa using hwith3.symm
    subst heq2
    subst heq3
    constructor
    · intro i hi hw
      have hres := attribute_at_each_hit w sorted 0 i hi hw
      obtain ⟨h1, h2, _⟩ := hspace2 sorted[i] (hmem_sorted _ (List.getElem_mem _))
      have hne : ((sorted[i].first_attribute_handle + 1) % 65536) % 65536 ≠ 0 := by
        rw [Nat.mod_mod, Nat.mod_eq_of_lt (by omega)]
        omega
      have hsome : find_notification_data_by_index w Priorities Services i
          = some { attribute_handle := ((sorted[i].first_attribute_handle + 1) % 65536) % 65536,
                   index := i } := by
        simp only [find_notification_data_by_index, hsorted]
        rw [hres, construct_eq_some _ _ hne]
      exact ⟨_, hsome, hindex _ _ hsome⟩
    · intro v hv
      obtain ⟨g, hg⟩ := attribute_value_visit_returns w only_with_cccd
        { result := notification_data.sentinel, index := 0, value := v }
        (by
          intro O hO
          obtain ⟨h1, h2, _⟩ := hspace2 O (hmem_only O hO)
          rw [Nat.mod_eq_of_lt (by omega)]
          omega)
      have hsome : find_notification_data w Priorities Services v = some g.result := by
        simp only [find_notification_data, honly, hg]
      exact ⟨_, hsome, hvalue _ _ hv hsome⟩

/-- Witness of C17: the documented server. -/
theorem handles_increase_and_reported_handle_is_not_zero_witness :
    example_server.documented_with_handles.map (fun Pair => Pair.first_attribute_handle)
      = [2, 5, 8, 12, 15, 18, 22, 25, 28]
    ∧ example_server.documented_with_handles.Pairwise
        (fun A B => A.first_attribute_handle < B.first_attribute_handle)
    ∧ (∀ i, i < example_server.documented_sorted.length →
        example_server.documented_sorted.length ≤ 2 ^ 64 →
        ∃ data, find_notification_data_by_index 64 example_server.documented_priorities
            example_server.documented_services i = some data
          ∧ data.attribute_handle ≠ 0)
    ∧ (∀ v, (∃ Pair ∈ example_server.documented_only_with_cccd,
          Pair.characteristic_t.is_this v = true) →
        ∃ data, find_notification_data 64 example_server.documented_priorities
            example_server.documented_services v = some data
          ∧ data.attribute_handle ≠ 0) :=
  ⟨by decide,
    (handles_increase_and_reported_handle_is_not_zero 64 example_server.documented_priorities
      example_server.documented_services example_server.documented_with_handles
      example_server.documented_only_with_cccd example_server.documented_sorted (by rfl)
      (by rfl) (by rfl) (by decide)).1,
    ((handles_increase_and_reported_handle_is_not_zero 64 example_server.documented_priorities
      example_server.documented_services example_server.documented_with_handles
      example_server.documented_only_with_cccd example_server.documented_sorted (by rfl)
      (by rfl) (by rfl) (by decide)).2.2.2 example_server.own_attribute (by decide)
      (by decide)).1,
    ((handles_increase_and_reported_handle_is_not_zero 64 example_server.documented_priorities
      example_server.documented_services example_server.documented_with_handles
      example_server.documented_only_with_cccd example_server.documented_sorted (by rfl)
      (by rfl) (by rfl) (by decide)).2.2.2 example_server.own_attribute (by decide)
      (by decide)).2⟩

/-! ## C18: `sum_up_attributes` and the assertion of `attribute_at_list` -/

theorem attribute_at_list_in_range (Ps : List attribute_provider) (index : Nat)
    (h : index < sum_up_attributes Ps) :
    ∃ k j, ∃ hk : k < Ps.length,
      j < (Ps.get ⟨k, hk⟩).number_of_attributes
      ∧ attribute_at_list.attribute_at Ps index = (Ps.get ⟨k, hk⟩).attribute_at j := by
  induction Ps generalizing index with
  | nil => simp [sum_up_attributes] at h
  | cons T Ts ih =>
    by_cases hlt : index < T.number_of_attributes
    · exact ⟨0, index, by simp, by simpa using hlt,
        by simp [attribute_at_list.attribute_at, hlt]⟩
    · simp only [sum_up_attributes] at h
      obtain ⟨k, j, hk, hj, hat⟩ := ih (index - T.number_of_attributes) (by omega)
      refine ⟨k + 1, j, by simpa using hk, by simpa using hj, ?_⟩
      simp only [attribute_at_list.attribute_at, hlt, if_false]
      simpa using hat

/-- C18: `sum_up_attributes::value` is the sum of the providers' `number_of_attributes`;
for every `index >= sum_up_attributes::value`, `attribute_at_list::attribute_at( index )` ends
in the assertion of the empty tuple and returns no attribute; for every index below
`sum_up_attributes::value` it is `attribute_at( j )` of one of the providers, with `j` below
the `number_of_attributes` of that provider, so the assertion is not reached; and when no
provider fails at an index below its `number_of_attributes`, `attribute_at_list::attribute_at(
index )` returns no attribute if and only if `index >= sum_up_attributes::value`. -/
theorem sum_up_attributes_bounds_attribute_at_list (Ps : List attribute_provider) :
    sum_up_attributes Ps = (Ps.map (fun P => P.number_of_attributes)).sum
    ∧ (∀ index, sum_up_attributes Ps ≤ index → attribute_at_list.attribute_at Ps index = none)
    ∧ (∀ index, index < sum_up_attributes Ps →
        ∃ k j, ∃ hk : k < Ps.length,
          j < (Ps.get ⟨k, hk⟩).number_of_attributes
          ∧ attribute_at_list.attribute_at Ps index = (Ps.get ⟨k, hk⟩).attribute_at j)
    ∧ ((∀ P ∈ Ps, ∀ j, j < P.number_of_attributes → P.attribute_at j ≠ none) →
        ∀ index, attribute_at_list.attribute_at Ps index = none ↔ sum_up_attributes Ps ≤ index)
    := by
  refine ⟨sum_up_attributes_eq Ps, attribute_at_list_out_of_range Ps,
    attribute_at_list_in_range Ps, ?_⟩
  intro htotal index
  constructor
  · intro hnone
    by_contra hlt
    obtain ⟨k, j, hk, hj, hat⟩ := attribute_at_list_in_range Ps index (by omega)
    rw [hnone] at hat
    exact htotal _ (List.get_mem _ _ _) j hj hat.symm
  · exact attribute_at_list_out_of_range Ps index

/-- Witness of C18: the providers with 2, 0 and 3 attributes: the sum is 5, the index 5 ends in
the assertion, the index 4 is the attribute 2 of the third provider. -/
theorem sum_up_attributes_bounds_attribute_at_list_witness :
    sum_up_attributes example_server.three_providers = 5
    ∧ attribute_at_list.attribute_at example_server.three_providers 5 = none
    ∧ attribute_at_list.attribute_at example_server.three_providers 4
        = some { uuid := 30, access := 2 }
    ∧ (∀ index, attribute_at_list.attribute_at example_server.three_providers index = none
        ↔ sum_up_attributes example_server.three_providers ≤ index) :=
  ⟨by decide,
    (sum_up_attributes_bounds_attribute_at_list example_server.three_providers).2.1 5
      (by decide),
    by decide,
    (sum_up_attributes_bounds_attribute_at_list example_server.three_providers).2.2.2
      (by decide)⟩

end bluetoe
